import Mathlib

/-!
Verification development for the slant-range/ground-range deskewing engine
(`deskew_dem.c` of ASF MapReady): a shallow embedding of `SR2GR`, `dem_gr2sr`,
`dem_sr2gr`, `geo_compensate` and `radio_compensate`, with theorems about the
resampling, layover/shadow classification, mask stability and the radiometric
formula gate.  C doubles are modelled as exact rationals; the external metadata
services (`meta_get_slant`, `meta_get_earth_radius`, `meta_get_sat_height`) and
the real square root are abstract function parameters carried in the model.
-/

namespace DeskewDem

/-- Truncation of a rational toward zero, the semantics of the C cast
`(int)x` applied to a floating-point value. -/
def truncZ (q : ℚ) : ℤ := if 0 ≤ q then ⌊q⌋ else -⌊-q⌋

/-- Integer-indexed list read with an explicit default, the semantics of a C
array read `l[i]` for an in-bounds index; out-of-range indices give the
default (out-of-bounds C reads are modelled separately by `getChk`). -/
def getI {α : Type} (dflt : α) : List α → ℤ → α
  | [], _ => dflt
  | a :: t, i => if i = 0 then a else if i < 0 then dflt else getI dflt t (i - 1)

/-- Integer-indexed list write, the semantics of a C array write `l[i] = v`;
out-of-range indices leave the list unchanged. -/
def setI {α : Type} : List α → ℤ → α → List α
  | [], _, _ => []
  | a :: t, i, v => if i = 0 then v :: t else if i < 0 then a :: t else a :: setI t (i - 1) v

/-- Bounds-checked read used to express that a C array access is in bounds:
`none` models an out-of-bounds access. -/
def getChk (l : List ℚ) (i : ℤ) : Option ℚ :=
  if 0 ≤ i ∧ i < (l.length : ℤ) then some (getI 0 l i) else none

/-- Ascending run of `n` consecutive integers starting at `lo`, used to model
the C `for` loops. -/
def intRange (lo : ℤ) : ℕ → List ℤ
  | 0 => []
  | n + 1 => lo :: intRange (lo + 1) n

/-- Modelled from the spec: the reserved "bad DEM height" sentinel marking
unmeasured terrain (the constant `BAD_DEM_HEIGHT` lives in a header that is
not part of the sources).  The exact value is immaterial to the claims; what
matters is that it is below -900 and more than the 0.0001 tolerance away from
`NO_DEM_DATA`. -/
def badDEMht : ℚ := -100000

/-- Modelled from the spec: the reserved "no DEM data" sentinel marking
explicitly absent data, distinct from `badDEMht` and above it (heights are
valid in `dem_sr2gr` only when strictly above `badDEMht`, and the spec treats
the no-data sentinel as a live value that propagates through gaps). -/
def NO_DEM_DATA : ℚ := -999

/-- Modelled from the spec: mask classification code for a normal pixel
(the `MASK_...` constants live in a header that is not part of the sources;
they are small distinct integer-valued floats, which is all the claims use). -/
def MASK_NORMAL : ℚ := 1

/-- Modelled from the spec: mask classification code for a layover pixel. -/
def MASK_LAYOVER : ℚ := 3

/-- Modelled from the spec: mask classification code for a shadow pixel. -/
def MASK_SHADOW : ℚ := 4

/-- Modelled from the spec: mask classification code for a user-masked pixel. -/
def MASK_USER_MASK : ℚ := 5

/-- Modelled from the spec: mask classification code for an invalid-data
(outside the valid swath) pixel. -/
def MASK_INVALID_DATA : ℚ := 6

/-- Maximum break length for hole interpolation (`static const int
maxBreakLen=5`). -/
def maxBreakLen : ℤ := 5

/-- The working data of `deskew_dem` (`struct deskew_dem_data`), restricted to
the fields the verified functions read, together with the external services
they call: `metaSlant`/`metaER`/`metaSatHt` model the opaque metadata
accessors `meta_get_slant`, `meta_get_earth_radius`, `meta_get_sat_height`
(spec §6), and `sqrtQ` models the real `sqrt` on the idealised rationals. -/
structure DD where
  numSamples : ℤ
  slantGR : List ℚ
  heightShiftGR : List ℚ
  heightShiftSR : List ℚ
  groundSR : List ℚ
  sinIncidAng : List ℚ
  cosIncidAng : List ℚ
  grPixelSize : ℚ
  metaSlant : ℤ → ℤ → ℚ
  metaER : ℤ → ℤ → ℚ
  metaSatHt : ℤ → ℚ
  sqrtQ : ℚ → ℚ

/-- The helper `eq(a,b,tol)`: absolute difference below the tolerance. -/
def eq (a b tol : ℚ) : Bool := decide (|a - b| < tol)

/-- `SR2GR`: map a slant-range fractional sample position and a terrain height
to a ground-range fractional position.  The height shift is removed using the
table entry at the truncated (unclamped) position, the result is clamped to
the valid interpolation range, and `groundSR` is interpolated linearly. -/
def SR2GR (d : DD) (srX height : ℚ) : ℚ :=
  let srXSeaLevel := srX - height * getI 0 d.heightShiftSR (truncZ srX)
  let s1 := if srXSeaLevel < 0 then 0 else srXSeaLevel
  let s2 := if s1 ≥ (d.numSamples : ℚ) - 1 then (d.numSamples : ℚ) - 2 else s1
  let ix : ℤ := truncZ s2
  let dx := s2 - (ix : ℚ)
  getI 0 d.groundSR ix + dx * (getI 0 d.groundSR (ix + 1) - getI 0 d.groundSR ix)

/-- `dem_gr2sr`: the mirror of `SR2GR`, mapping a ground-range fractional
position and a height to a slant-range fractional position via `slantGR`. -/
def dem_gr2sr (d : DD) (grX height : ℚ) : ℚ :=
  let grXSeaLevel := grX - height * getI 0 d.heightShiftGR (truncZ grX)
  let s1 := if grXSeaLevel < 0 then 0 else grXSeaLevel
  let s2 := if s1 ≥ (d.numSamples : ℚ) - 1 then (d.numSamples : ℚ) - 2 else s1
  let ix : ℤ := truncZ s2
  let dx := s2 - (ix : ℚ)
  getI 0 d.slantGR ix + dx * (getI 0 d.slantGR (ix + 1) - getI 0 d.slantGR ix)

/-- Bounds-checked replay of `SR2GR`: performs exactly the array accesses of
the C function, in order, returning `none` as soon as one is out of bounds
(the height-shift table is read at the truncated position before any
clamping). -/
def SR2GR_chk (d : DD) (srX height : ℚ) : Option ℚ := do
  let hs ← getChk d.heightShiftSR (truncZ srX)
  let srXSeaLevel := srX - height * hs
  let s1 := if srXSeaLevel < 0 then 0 else srXSeaLevel
  let s2 := if s1 ≥ (d.numSamples : ℚ) - 1 then (d.numSamples : ℚ) - 2 else s1
  let ix : ℤ := truncZ s2
  let dx := s2 - (ix : ℚ)
  let g0 ← getChk d.groundSR ix
  let g1 ← getChk d.groundSR (ix + 1)
  some (g0 + dx * (g1 - g0))

/-- Bounds-checked replay of `dem_gr2sr`, analogous to `SR2GR_chk`. -/
def dem_gr2sr_chk (d : DD) (grX height : ℚ) : Option ℚ := do
  let hs ← getChk d.heightShiftGR (truncZ grX)
  let grXSeaLevel := grX - height * hs
  let s1 := if grXSeaLevel < 0 then 0 else grXSeaLevel
  let s2 := if s1 ≥ (d.numSamples : ℚ) - 1 then (d.numSamples : ℚ) - 2 else s1
  let ix : ℤ := truncZ s2
  let dx := s2 - (ix : ℚ)
  let g0 ← getChk d.slantGR ix
  let g1 ← getChk d.slantGR (ix + 1)
  some (g0 + dx * (g1 - g0))

/-- The common table-interpolation pattern of `SR2GR` and `dem_gr2sr`,
abstracted over the height-shift table and the interpolated table (proof
infrastructure: `SR2GR` and `dem_gr2sr` are definitionally instances of it). -/
def interpTbl (hsTbl tbl : List ℚ) (ns : ℤ) (pos height : ℚ) : ℚ :=
  let seaLevel := pos - height * getI 0 hsTbl (truncZ pos)
  let s1 := if seaLevel < 0 then 0 else seaLevel
  let s2 := if s1 ≥ (ns : ℚ) - 1 then (ns : ℚ) - 2 else s1
  let ix : ℤ := truncZ s2
  let dx := s2 - (ix : ℚ)
  getI 0 tbl ix + dx * (getI 0 tbl (ix + 1) - getI 0 tbl ix)

/-- The bounds-checked version of `interpTbl` (proof infrastructure:
`SR2GR_chk` and `dem_gr2sr_chk` are definitionally instances of it). -/
def interpChkTbl (hsTbl tbl : List ℚ) (ns : ℤ) (pos height : ℚ) : Option ℚ := do
  let hs ← getChk hsTbl (truncZ pos)
  let seaLevel := pos - height * hs
  let s1 := if seaLevel < 0 then 0 else seaLevel
  let s2 := if s1 ≥ (ns : ℚ) - 1 then (ns : ℚ) - 2 else s1
  let ix : ℤ := truncZ s2
  let dx := s2 - (ix : ℚ)
  let g0 ← getChk tbl ix
  let g1 ← getChk tbl (ix + 1)
  some (g0 + dx * (g1 - g0))

/-- The interpolation loop of `dem_sr2gr`: write `curr`, `curr+delt`,
`curr+2*delt`, ... at positions `lo`, `lo+1`, ... for `n` steps (the C loop
`for (xInterp=lastOutX+1; xInterp<=outX; xInterp++) { outBuf[xInterp]=curr;
curr+=delt; }`). -/
def interpGap (out : List ℚ) (lo : ℤ) (n : ℕ) (start delt : ℚ) : List ℚ :=
  ((intRange lo n).foldl (fun bc xInterp => (setI bc.1 xInterp bc.2, bc.2 + delt))
    (out, start)).1

/-- The sentinel-propagation loop of `dem_sr2gr`: write the constant `v` at
positions `lo`, `lo+1`, ... for `n` steps (the C loop
`for (xInterp=lastOutX+1; xInterp<=outX; xInterp++) outBuf[xInterp]=NO_DEM_DATA;`). -/
def constGap (out : List ℚ) (lo : ℤ) (n : ℕ) (v : ℚ) : List ℚ :=
  (intRange lo n).foldl (fun b xInterp => setI b xInterp v) out

/-- State threaded through the `dem_sr2gr` input loop: the output buffer and
the position/value of the last valid sample (`lastOutX`, `lastOutValue`). -/
structure SrState where
  out : List ℚ
  lastOutX : ℤ
  lastOutValue : ℚ
deriving Repr

/-- One iteration of the `dem_sr2gr` input loop, for input sample `inX`:
compute the output position; on a valid sample either propagate the
"no DEM data" sentinel across the gap, interpolate across it (when holes are
being filled or the break is short), or skip it, then record the sample as
the last valid one. -/
def dem_sr2gr_step (d : DD) (inBuf : List ℚ) (ns : ℤ) (fill_holes : Bool)
    (st : SrState) (inX : ℤ) : SrState :=
  let height := getI 0 inBuf inX
  let outX : ℤ := truncZ (SR2GR d (inX : ℚ) height)
  if height > badDEMht ∧ 0 ≤ outX ∧ outX < ns then
    let gap : ℕ := (outX - st.lastOutX).toNat
    let out1 :=
      if eq st.lastOutValue NO_DEM_DATA (1/10000) || eq height NO_DEM_DATA (1/10000) then
        constGap st.out (st.lastOutX + 1) gap NO_DEM_DATA
      else if st.lastOutValue ≠ badDEMht ∧ (fill_holes ∨ outX - st.lastOutX < maxBreakLen) then
        let delt := (height - st.lastOutValue) / ((outX : ℚ) - (st.lastOutX : ℚ))
        interpGap st.out (st.lastOutX + 1) gap (st.lastOutValue + delt) delt
      else st.out
    { out := out1, lastOutX := outX, lastOutValue := height }
  else st

/-- `dem_sr2gr`: convert a full scanline of DEM heights from slant range to
ground range.  The output buffer is pre-filled with the bad-height sentinel,
then the input samples are folded through `dem_sr2gr_step`. -/
def dem_sr2gr (d : DD) (inBuf : List ℚ) (ns : ℤ) (fill_holes : Bool) : List ℚ :=
  ((intRange 0 ns.toNat).foldl (dem_sr2gr_step d inBuf ns fill_holes)
    { out := List.replicate ns.toNat badDEMht, lastOutX := -1, lastOutValue := badDEMht }).out

/-- State threaded through `geo_compensate`: the output line, the mask line,
the layover hit table `sr_hits` (laid out as in the source: entry `i` for
slant pixel `x` lives at index `i*ns + x`), the global counters `n_layover`
and `n_shadow`, and the sweep-local trackers. -/
structure GeoState where
  out : List ℚ
  mask : List ℚ
  srHits : List ℤ
  nLayover : ℤ
  nShadow : ℤ
  validDataYet : Bool
  lastGoodHeight : ℚ
  maxValidSrX : ℚ
  maxValidSrXHeight : ℚ
  biggestLook : ℚ
  maxHeight : ℚ
deriving Repr

/-- Mark one ground-range origin as layover: only a pixel whose current mask
value is `MASK_NORMAL` is promoted (and counted). -/
def markLayover (g : ℤ) (st : GeoState) : GeoState :=
  if getI 0 st.mask g = MASK_NORMAL then
    { st with nLayover := st.nLayover + 1, mask := setI st.mask g MASK_LAYOVER }
  else st

/-- The layover block of `geo_compensate` for slant pixel `x` hit from ground
pixel `grX`: record the hit in the first free slot of the 2-entry hit table;
when both slots are already taken this is a third-or-later hit and all
recorded origins plus the current pixel are submitted to `markLayover`.
The capacity-2 loop of the source (`num_hits_required_for_layover == 2`)
is unrolled. -/
def layoverUpd (ns x grX : ℤ) (st : GeoState) : GeoState :=
  let h0 := getI (-1) st.srHits x
  if h0 = -1 then { st with srHits := setI st.srHits x grX }
  else
    let h1 := getI (-1) st.srHits (ns + x)
    if h1 = -1 then { st with srHits := setI st.srHits (ns + x) grX }
    else markLayover grX (markLayover h1 (markLayover h0 st))

/-- The "look value" of the shadow tracker: starting from the sea-level angle
`phi` recovered from the metadata slant range and earth radius, account for
the terrain height and return the negated cosine of the resulting look
angle. -/
def curLook (d : DD) (grDEM : List ℚ) (sat_ht : ℚ) (line grX : ℤ) : ℚ :=
  let h := sat_ht
  let sr := d.metaSlant line grX
  let er := d.metaER line grX
  let phiCosX2 := (h * h + er * er - sr * sr) / (h * er)
  let er2 := er + getI 0 grDEM grX
  let sr2 := d.sqrtQ (h * h + er2 * er2 - h * er2 * phiCosX2)
  let res := -(sr2 * sr2 + h * h - er2 * er2) / (2 * sr2 * h)
  res

/-- The shadow block of `geo_compensate`: a look value at least as large as
the running maximum updates the maximum; a strictly smaller one means the
pixel is shadowed and, when still normal, it is marked shadow and counted. -/
def shadowUpd (d : DD) (grDEM : List ℚ) (sat_ht : ℚ) (line grX : ℤ)
    (st : GeoState) : GeoState :=
  let cl := curLook d grDEM sat_ht line grX
  if cl ≥ st.biggestLook then { st with biggestLook := cl }
  else if getI 0 st.mask grX = MASK_NORMAL then
    { st with mask := setI st.mask grX MASK_SHADOW, nShadow := st.nShadow + 1 }
  else st

/-- The in-swath part of the per-pixel body of the main sweep: sample the
input line at the fractional slant position `srX` (bilinear when `doInterp`,
else nearest neighbour), record that valid data has been seen, and update the
maximum valid slant position. -/
def geoPixelValid (inp : List ℚ) (doInterp : Bool) (height srX : ℚ) (grX : ℤ)
    (st : GeoState) : GeoState :=
  let x : ℤ := ⌊srX⌋
  let dx := srX - (x : ℚ)
  let outv := if doInterp then (1 - dx) * getI 0 inp x + dx * getI 0 inp (x + 1)
              else if dx ≤ 1/2 then getI 0 inp x else getI 0 inp (x + 1)
  let st1 := { st with out := setI st.out grX outv, validDataYet := true }
  if srX > st1.maxValidSrX then
    { st1 with maxValidSrX := srX, maxValidSrXHeight := height }
  else st1

/-- One iteration of the main sweep of `geo_compensate` for ground pixel
`grX`: heights below -900 collapse to the bad sentinel; a valid height is
mapped through `dem_gr2sr` and either sampled (with layover and shadow
classification when a mask is present) or zeroed when out of swath; a bad
height falls back to the last good height, copying the nearest-neighbour
pixel when valid data has already been seen. -/
def geoPixel (d : DD) (grDEM inp : List ℚ) (ns : ℤ) (doInterp hasMask : Bool)
    (sat_ht : ℚ) (line : ℤ) (st : GeoState) (grX : ℤ) : GeoState :=
  let height0 := getI 0 grDEM grX
  let height := if height0 < -900 then badDEMht else height0
  if height ≠ badDEMht then
    let srX := dem_gr2sr d (grX : ℚ) height
    let st0 := { st with
      maxHeight := if height > st.maxHeight then height else st.maxHeight,
      lastGoodHeight := height }
    if 1 ≤ srX ∧ srX < (ns : ℚ) - 1 then
      let st1 := geoPixelValid inp doInterp height srX grX st0
      if hasMask then
        shadowUpd d grDEM sat_ht line grX (layoverUpd ns ⌊srX⌋ grX st1)
      else st1
    else
      { st0 with out := setI st0.out grX 0 }
  else
    let srX := dem_gr2sr d (grX : ℚ) st.lastGoodHeight
    if st.validDataYet = true ∧ 0 ≤ srX ∧ srX < (ns : ℚ) - 1 then
      let outv := getI 0 inp (truncZ (srX + 1/2))
      let st1 := { st with out := setI st.out grX outv }
      if outv ≠ 0 ∧ srX > st1.maxValidSrX then
        { st1 with maxValidSrX := srX, maxValidSrXHeight := st1.lastGoodHeight }
      else st1
    else
      { st with out := setI st.out grX 0 }

/-- The per-line mask reset: every pixel that is neither user-masked nor
invalid-data is reset to normal. -/
def maskReset (mask : List ℚ) : List ℚ :=
  mask.map (fun v => if v ≠ MASK_USER_MASK ∧ v ≠ MASK_INVALID_DATA then MASK_NORMAL else v)

/-- One step of the 1-pixel hole-closing pass: an isolated normal pixel
flanked by two layover (resp. shadow) pixels is promoted to that class and
counted. -/
def holeStep (st : GeoState) (grX : ℤ) : GeoState :=
  if getI 0 st.mask grX = MASK_NORMAL then
    if getI 0 st.mask (grX - 1) = MASK_LAYOVER ∧ getI 0 st.mask (grX + 1) = MASK_LAYOVER then
      { st with nLayover := st.nLayover + 1, mask := setI st.mask grX MASK_LAYOVER }
    else if getI 0 st.mask (grX - 1) = MASK_SHADOW ∧ getI 0 st.mask (grX + 1) = MASK_SHADOW then
      { st with nShadow := st.nShadow + 1, mask := setI st.mask grX MASK_SHADOW }
    else st
  else st

/-- The 1-pixel hole-closing pass of `geo_compensate`: `holeStep` over
`grX = 2, ..., ns-3` (the C loop `for (grX=2; grX<ns-2; grX++)`). -/
def holeClose (ns : ℤ) (st : GeoState) : GeoState :=
  (intRange 2 (ns - 4).toNat).foldl holeStep st

/-- State of the right-to-left edge sweep of `geo_compensate`. -/
structure EdgeState where
  out : List ℚ
  minValidSrX : ℚ
  minValidSrXHeight : ℚ
  lastGoodHeight : ℚ
deriving Repr

/-- One iteration of the right-to-left edge sweep: track the minimum valid
slant position actually used; on a bad height, fall back to the last good
height and fill a zero output pixel by nearest neighbour. -/
def edgeStep (d : DD) (grDEM inp : List ℚ) (st : EdgeState) (grX : ℤ) : EdgeState :=
  let height := getI 0 grDEM grX
  if height > -900 ∧ height ≠ badDEMht then
    let st1 := { st with lastGoodHeight := height }
    let srX := dem_gr2sr d (grX : ℚ) height
    if 0 ≤ srX ∧ srX < st1.minValidSrX then
      { st1 with minValidSrX := srX, minValidSrXHeight := height }
    else st1
  else
    let srX := dem_gr2sr d (grX : ℚ) st.lastGoodHeight
    if 0 ≤ srX ∧ srX < st.minValidSrX then
      let out1 := if getI 0 st.out grX = 0
                  then setI st.out grX (getI 0 inp (truncZ (srX + 1/2)))
                  else st.out
      { st with minValidSrX := srX, minValidSrXHeight := st.lastGoodHeight, out := out1 }
    else st

/-- The final mask pass of `geo_compensate`: convert the extreme valid slant
positions back to ground range and mark everything beyond them as invalid
data (on the right edge unconditionally, on the left edge only where the
output is zero). -/
def edgeMask (d : DD) (ns : ℤ) (maxSrX maxH minSrX minH : ℚ)
    (out : List ℚ) (mask : List ℚ) : List ℚ :=
  let maxG : ℤ := ⌊SR2GR d maxSrX maxH⌋
  let minG : ℤ := ⌈SR2GR d minSrX minH⌉
  let mask1 :=
    if maxG < ns - 1 ∧ 0 ≤ maxG then
      (intRange maxG (ns - maxG).toNat).foldl (fun m i => setI m i MASK_INVALID_DATA) mask
    else mask
  if minG < ns - 1 ∧ 0 ≤ minG then
    ((intRange 0 (minG + 1).toNat).reverse).foldl
      (fun m i => if getI 0 out i = 0 then setI m i MASK_INVALID_DATA else m) mask1
  else mask1

/-- `geo_compensate`: produce one ground-range output line from one
slant-range input line, with optional mask classification.  `mask?` models
the possibly-NULL mask argument; `nLay0`/`nShad0` are the values of the
global counters `n_layover`/`n_shadow` on entry.  Returns the full final
state (output line, mask line, hit table, counters). -/
def geo_compensate (d : DD) (grDEM inp out0 : List ℚ) (ns : ℤ)
    (doInterp : Bool) (mask? : Option (List ℚ)) (line : ℤ)
    (nLay0 nShad0 : ℤ) : GeoState :=
  let hasMask := mask?.isSome
  let mask0 := match mask? with
    | some m => maskReset m
    | none => []
  let sat_ht := d.metaSatHt line
  let init : GeoState := {
    out := out0, mask := mask0,
    srHits := List.replicate (2 * ns).toNat (-1),
    nLayover := nLay0, nShadow := nShad0,
    validDataYet := false, lastGoodHeight := 0,
    maxValidSrX := -1, maxValidSrXHeight := 0,
    biggestLook := -2, maxHeight := getI 0 grDEM 0 }
  let swept := (intRange 0 ns.toNat).foldl
    (geoPixel d grDEM inp ns doInterp hasMask sat_ht line) init
  let closed := if hasMask then holeClose ns swept else swept
  let edgeInit : EdgeState := {
    out := closed.out, minValidSrX := (ns : ℚ) - 1,
    minValidSrXHeight := 0, lastGoodHeight := 0 }
  let edged := ((intRange 0 ns.toNat).reverse).foldl (edgeStep d grDEM inp) edgeInit
  let closed1 := { closed with out := edged.out }
  if hasMask then
    let m1 := edgeMask d ns closed.maxValidSrX closed.maxValidSrXHeight edged.minValidSrX edged.minValidSrXHeight edged.out closed.mask
    { closed1 with mask := m1 }
  else closed1

/-- The helper `bad_dem_height`: a height is bad when below -900 or equal to
the bad-height sentinel. -/
def bad_dem_height (height : ℚ) : Bool :=
  decide (height < -900) || decide (height = badDEMht)

/-- Outcome of `radio_compensate`: either the corrected line, or a fatal
`asfPrintError` carrying the formula number.  The legacy formula cases
(1,2,3,4,6) multiply the pixel and then call `bad_rtc`, and case 0 inside
the switch errors immediately; since `asfPrintError` terminates the process
and the buffer does not survive it, every such case is modelled as
`RC.fatal form`. -/
inductive RC where
  | ok : List ℚ → RC
  | fatal : ℤ → RC
deriving DecidableEq, Repr

/-- The per-pixel body of the `radio_compensate` loop for pixel `x`:
user-masked pixels and pixels with any bad DEM height in the slope stencil
are skipped; otherwise the across-track slope gives `cosAng`, and a facet
facing the sensor is corrected by the formula selected by `form`
(formula 5 scales by `sqrt(1-cosAng^2)/sinIncidAng[x]`; every other formula
reaches a fatal error path, see `RC`). -/
def rcPixel (d : DD) (grDEM grDEMprev : List ℚ) (form : ℤ) (mask : List ℚ)
    (buf : List ℚ) (x : ℤ) : RC :=
  if getI 0 mask x = MASK_USER_MASK then RC.ok buf
  else if bad_dem_height (getI 0 grDEM x) || bad_dem_height (getI 0 grDEMprev x)
       || bad_dem_height (getI 0 grDEM (x - 1)) then RC.ok buf
  else
    let grX := getI 0 grDEM x
    let dx := (grX - getI 0 grDEM (x - 1)) / d.grPixelSize
    let vecLen := d.sqrtQ (dx * dx + 1)
    let cosAng := (dx * getI 0 d.sinIncidAng x + getI 0 d.cosIncidAng x) / vecLen
    if cosAng ≥ 0 then
      if form = 5 then
        RC.ok (setI buf x (getI 0 buf x * (d.sqrtQ (1 - cosAng * cosAng) / getI 0 d.sinIncidAng x)))
      else RC.fatal form
    else RC.ok buf

/-- One fold step of the `radio_compensate` loop: a fatal outcome is final
(the process has terminated), otherwise the pixel body runs on the current
buffer. -/
def rcStep (d : DD) (grDEM grDEMprev : List ℚ) (form : ℤ) (mask : List ℚ)
    (acc : RC) (x : ℤ) : RC :=
  match acc with
  | RC.fatal f => RC.fatal f
  | RC.ok buf => rcPixel d grDEM grDEMprev form mask buf x

/-- `radio_compensate`: scale pixel amplitudes by the terrain-slope
correction.  A zero `form` disables the correction entirely; otherwise the
source hard-codes `form = 5` before the loop ("hard-coded to use formula #5
for now"), and the loop runs over `x = 1, ..., ns-1`. -/
def radio_compensate (d : DD) (grDEM grDEMprev inout : List ℚ) (ns line form : ℤ)
    (mask : List ℚ) : RC :=
  if form = 0 then RC.ok inout
  else
    let form := 5
    (intRange 1 (ns - 1).toNat).foldl (rcStep d grDEM grDEMprev form mask) (RC.ok inout)

/-! Concrete configurations used to exercise the model on explicit inputs. -/

/-- Identity lookup table for an 8-sample test geometry. -/
def idTbl : List ℚ := [0, 1, 2, 3, 4, 5, 6, 7]

/-- An 8-sample test geometry: identity ground/slant tables, no slant-side
height shift, a ground-side height shift of 1/100 pixel per metre, and
constant external metadata services. -/
def dPeak : DD := {
  numSamples := 8,
  slantGR := idTbl,
  heightShiftGR := [1/100, 1/100, 1/100, 1/100, 1/100, 1/100, 1/100, 1/100],
  heightShiftSR := [0, 0, 0, 0, 0, 0, 0, 0],
  groundSR := idTbl,
  sinIncidAng := [1, 1, 1, 1, 1, 1, 1, 1],
  cosIncidAng := [0, 0, 0, 0, 0, 0, 0, 0],
  grPixelSize := 1,
  metaSlant := fun _ _ => 1,
  metaER := fun _ _ => 1,
  metaSatHt := fun _ => 2,
  sqrtQ := fun _ => 1 }

/-- A DEM line with a single isolated sharp peak over flat terrain: under
`dPeak`, ground pixels 2, 3 and 4 all map to slant pixel 2. -/
def peakDEM : List ℚ := [0, 0, 0, 100, 200, 0, 0, 0]

/-- The `dPeak` geometry with the ground-side height shift also zeroed, so
that `dem_gr2sr` is the identity (up to edge clamping) on flat terrain. -/
def dFlat : DD := { dPeak with heightShiftGR := [0, 0, 0, 0, 0, 0, 0, 0] }

/-- The `dPeak` geometry with a `groundSR` table sending slant sample 1 to
ground position 5, producing a ground-range gap of exactly `maxBreakLen`
pixels between consecutive valid samples. -/
def dC5 : DD := { dPeak with groundSR := [0, 5, 9, 9, 9, 9, 9, 9] }

/-- An all-normal 8-pixel input mask line. -/
def maskAllNormal : List ℚ :=
  [MASK_NORMAL, MASK_NORMAL, MASK_NORMAL, MASK_NORMAL,
   MASK_NORMAL, MASK_NORMAL, MASK_NORMAL, MASK_NORMAL]

/-- An input mask line with pixel 2 user-masked. -/
def maskUser2 : List ℚ :=
  [MASK_NORMAL, MASK_NORMAL, MASK_USER_MASK, MASK_NORMAL,
   MASK_NORMAL, MASK_NORMAL, MASK_NORMAL, MASK_NORMAL]

/-- An input mask line with pixel 7 user-masked. -/
def maskUser7 : List ℚ :=
  [MASK_NORMAL, MASK_NORMAL, MASK_NORMAL, MASK_NORMAL,
   MASK_NORMAL, MASK_NORMAL, MASK_NORMAL, MASK_USER_MASK]

/-- An 8-element line of ones used as SAR input. -/
def ones8 : List ℚ := [1, 1, 1, 1, 1, 1, 1, 1]

/-- An 8-element zero line used as the stale output buffer. -/
def zeros8 : List ℚ := [0, 0, 0, 0, 0, 0, 0, 0]

/-- An ascending 8-element SAR input line. -/
def ramp8 : List ℚ := [10, 11, 12, 13, 14, 15, 16, 17]

/-- Slant-range DEM input for the `dem_sr2gr` gap experiments: two valid
heights followed by bad-height sentinels. -/
def srDEMgap : List ℚ :=
  [10, 20, badDEMht, badDEMht, badDEMht, badDEMht, badDEMht, badDEMht]

/-- The concrete `geo_compensate` run on the peak DEM with an all-normal
input mask. -/
def runPeak : GeoState :=
  geo_compensate dPeak peakDEM ones8 zeros8 8 true (some maskAllNormal) 0 0 0

/-- The concrete `geo_compensate` run on the peak DEM with ground pixel 2
user-masked on entry. -/
def runPeakUser : GeoState :=
  geo_compensate dPeak peakDEM ones8 zeros8 8 true (some maskUser2) 0 0 0

/-- The concrete `geo_compensate` run on a flat DEM with ground pixel 7
user-masked on entry. -/
def runFlatUser : GeoState :=
  geo_compensate dFlat zeros8 ramp8 zeros8 8 true (some maskUser7) 0 0 0

/-- A concrete sweep state for the hole-closing and layover witnesses:
pixel 1 is an isolated normal pixel flanked by layover pixels, and slant
pixel 1 of the hit table already records ground origins 0 and 1. -/
def stTest : GeoState := {
  out := zeros8,
  mask := [MASK_LAYOVER, MASK_NORMAL, MASK_LAYOVER, MASK_NORMAL,
           MASK_NORMAL, MASK_NORMAL, MASK_NORMAL, MASK_NORMAL],
  srHits := [-1, 0, -1, -1, -1, -1, -1, -1, -1, 1, -1, -1, -1, -1, -1, -1],
  nLayover := 0, nShadow := 0,
  validDataYet := false, lastGoodHeight := 0,
  maxValidSrX := -1, maxValidSrXHeight := 0,
  biggestLook := -2, maxHeight := 0 }

/-- A ground DEM line whose pixel 3 has height 200, so that under `dPeak`
ground pixel 3 maps to slant position 1 (with floor 1). -/
def grDEM200 : List ℚ := [0, 0, 0, 200, 0, 0, 0, 0]

/-- An 8-element line of bad-height sentinels. -/
def badDEM8 : List ℚ :=
  [badDEMht, badDEMht, badDEMht, badDEMht, badDEMht, badDEMht, badDEMht, badDEMht]

/-- A `dem_sr2gr` loop state whose last valid sample carried the "no DEM
data" sentinel at output position 0. -/
def stNoDem : SrState := { out := badDEM8, lastOutX := 0, lastOutValue := NO_DEM_DATA }

/-- A `dem_sr2gr` loop state whose last valid sample had height 10 at output
position 0. -/
def stGap : SrState := { out := badDEM8, lastOutX := 0, lastOutValue := 10 }

/-! Helper lemmas about the list and loop primitives. -/

theorem ceil_eval (q : ℚ) : ⌈q⌉ = -⌊-q⌋ := by
  rw [Int.floor_neg, neg_neg]

theorem length_setI {α : Type} : ∀ (l : List α) (i : ℤ) (v : α),
    (setI l i v).length = l.length
  | [], _, _ => rfl
  | a :: t, i, v => by
    simp only [setI]
    split
    · rfl
    · split
      · rfl
      · simp [length_setI t]

theorem getI_neg {α : Type} (d0 : α) (l : List α) (i : ℤ) (h : i < 0) :
    getI d0 l i = d0 := by
  cases l with
  | nil => rfl
  | cons a t =>
    have h0 : ¬ i = 0 := by omega
    simp [getI, h0, h]

theorem getI_setI_self {α : Type} (d0 : α) : ∀ (l : List α) (i : ℤ) (v : α),
    0 ≤ i → i < (l.length : ℤ) → getI d0 (setI l i v) i = v
  | [], i, v, h0, hl => by simp only [List.length_nil] at hl; omega
  | a :: t, i, v, h0, hl => by
    by_cases hi : i = 0
    · subst hi; simp [setI, getI]
    · have hneg : ¬ i < 0 := by omega
      simp only [setI, getI, if_neg hi, if_neg hneg]
      refine getI_setI_self d0 t (i - 1) v (by omega) ?_
      simp only [List.length_cons] at hl
      push_cast at hl ⊢
      omega

theorem getI_setI_ne {α : Type} (d0 : α) : ∀ (l : List α) (i j : ℤ) (v : α),
    i ≠ j → getI d0 (setI l j v) i = getI d0 l i
  | [], _, _, _, _ => rfl
  | a :: t, i, j, v, h => by
    by_cases hj : j = 0
    · subst hj
      have hi : ¬ i = 0 := h
      simp only [setI, if_pos rfl, getI, if_neg hi]
    · by_cases hjneg : j < 0
      · simp only [setI, if_neg hj, if_pos hjneg]
      · by_cases hi : i = 0
        · subst hi; simp [setI, getI, hj, hjneg]
        · by_cases hineg : i < 0
          · simp only [setI, if_neg hj, if_neg hjneg, getI, if_neg hi, if_pos hineg]
          · simp only [setI, if_neg hj, if_neg hjneg, getI, if_neg hi, if_neg hineg]
            exact getI_setI_ne d0 t (i - 1) (j - 1) v (by omega)

theorem mem_intRange : ∀ (n : ℕ) (lo a : ℤ), a ∈ intRange lo n → lo ≤ a ∧ a < lo + n
  | 0, lo, a, h => by simp [intRange] at h
  | n + 1, lo, a, h => by
    simp only [intRange, List.mem_cons] at h
    rcases h with h | h
    · subst h; push_cast; omega
    · have := mem_intRange n (lo + 1) a h
      push_cast at this ⊢
      omega

theorem getI_replicate {α : Type} (d0 v : α) : ∀ (n : ℕ) (j : ℤ),
    0 ≤ j → j < (n : ℤ) → getI d0 (List.replicate n v) j = v
  | 0, j, h0, h1 => by push_cast at h1; omega
  | n + 1, j, h0, h1 => by
    by_cases hj : j = 0
    · subst hj; simp [List.replicate_succ, getI]
    · have hneg : ¬ j < 0 := by omega
      simp only [List.replicate_succ, getI, if_neg hj, if_neg hneg]
      exact getI_replicate d0 v n (j - 1) (by omega) (by push_cast at h1 ⊢; omega)

theorem constGap_succ (out : List ℚ) (lo : ℤ) (n : ℕ) (v : ℚ) :
    constGap out lo (n + 1) v = constGap (setI out lo v) (lo + 1) n v := rfl

theorem interpGap_succ (out : List ℚ) (lo : ℤ) (n : ℕ) (s dl : ℚ) :
    interpGap out lo (n + 1) s dl = interpGap (setI out lo s) (lo + 1) n (s + dl) dl := rfl

theorem length_constGap : ∀ (n : ℕ) (out : List ℚ) (lo : ℤ) (v : ℚ),
    (constGap out lo n v).length = out.length
  | 0, _, _, _ => rfl
  | n + 1, out, lo, v => by
    rw [constGap_succ, length_constGap n, length_setI]

theorem length_interpGap : ∀ (n : ℕ) (out : List ℚ) (lo : ℤ) (s dl : ℚ),
    (interpGap out lo n s dl).length = out.length
  | 0, _, _, _, _ => rfl
  | n + 1, out, lo, s, dl => by
    rw [interpGap_succ, length_interpGap n, length_setI]

theorem getI_constGap_out (j : ℤ) : ∀ (n : ℕ) (out : List ℚ) (lo : ℤ) (v : ℚ),
    ¬ (lo ≤ j ∧ j < lo + (n : ℤ)) → getI 0 (constGap out lo n v) j = getI 0 out j
  | 0, _, _, _, _ => rfl
  | n + 1, out, lo, v, h => by
    rw [constGap_succ, getI_constGap_out j n _ _ _ (by push_cast at h ⊢; omega),
        getI_setI_ne 0 out j lo v (by push_cast at h; omega)]

theorem getI_constGap_in (j : ℤ) : ∀ (n : ℕ) (out : List ℚ) (lo : ℤ) (v : ℚ),
    lo ≤ j → j < lo + (n : ℤ) → 0 ≤ j → j < (out.length : ℤ) →
    getI 0 (constGap out lo n v) j = v
  | 0, _, _, _, _, h2, _, _ => by push_cast at h2; omega
  | n + 1, out, lo, v, h1, h2, h3, h4 => by
    by_cases hj : j = lo
    · subst hj
      rw [constGap_succ, getI_constGap_out j n _ _ _ (by omega),
          getI_setI_self 0 out j v h3 h4]
    · rw [constGap_succ]
      exact getI_constGap_in j n _ _ _ (by omega) (by push_cast at h2 ⊢; omega) h3
        (by rw [length_setI]; exact h4)

theorem getI_interpGap_out (j : ℤ) : ∀ (n : ℕ) (out : List ℚ) (lo : ℤ) (s dl : ℚ),
    ¬ (lo ≤ j ∧ j < lo + (n : ℤ)) → getI 0 (interpGap out lo n s dl) j = getI 0 out j
  | 0, _, _, _, _, _ => rfl
  | n + 1, out, lo, s, dl, h => by
    rw [interpGap_succ, getI_interpGap_out j n _ _ _ _ (by push_cast at h ⊢; omega),
        getI_setI_ne 0 out j lo s (by push_cast at h; omega)]

theorem getI_interpGap_in (j : ℤ) : ∀ (n : ℕ) (out : List ℚ) (lo : ℤ) (s dl : ℚ),
    lo ≤ j → j < lo + (n : ℤ) → 0 ≤ j → j < (out.length : ℤ) →
    getI 0 (interpGap out lo n s dl) j = s + ((j : ℚ) - (lo : ℚ)) * dl
  | 0, _, _, _, _, _, h2, _, _ => by push_cast at h2; omega
  | n + 1, out, lo, s, dl, h1, h2, h3, h4 => by
    by_cases hj : j = lo
    · subst hj
      rw [interpGap_succ, getI_interpGap_out j n _ _ _ _ (by omega),
          getI_setI_self 0 out j s h3 h4]
      ring
    · rw [interpGap_succ,
          getI_interpGap_in j n (setI out lo s) (lo + 1) (s + dl) dl (by omega)
            (by push_cast at h2 ⊢; omega) h3 (by rw [length_setI]; exact h4)]
      push_cast
      ring

theorem truncZ_of_nonneg (q : ℚ) (h : 0 ≤ q) : truncZ q = ⌊q⌋ := if_pos h

theorem truncZ_zero_of_neg (q : ℚ) (h1 : -1 < q) (h2 : q < 0) : truncZ q = 0 := by
  rw [truncZ, if_neg (not_le.mpr h2)]
  have hf : ⌊-q⌋ = 0 := by
    rw [Int.floor_eq_zero_iff, Set.mem_Ico]
    exact ⟨by linarith, by linarith⟩
  rw [hf, neg_zero]

theorem getChk_some (l : List ℚ) (i : ℤ) (h0 : 0 ≤ i) (h1 : i < (l.length : ℤ)) :
    getChk l i = some (getI 0 l i) := if_pos ⟨h0, h1⟩

/-! Literal-evaluation lemmas used to run the model on concrete inputs. -/

theorem toNat_lit1 : Int.toNat 1 = 1 := rfl
theorem toNat_lit2 : Int.toNat 2 = 2 := rfl
theorem toNat_lit4 : Int.toNat 4 = 4 := rfl
theorem toNat_lit5 : Int.toNat 5 = 5 := rfl
theorem toNat_lit8 : Int.toNat 8 = 8 := rfl
theorem toNat_lit16 : Int.toNat 16 = 16 := rfl
theorem intRange_0_1 : intRange 0 1 = [0] := by decide
theorem intRange_1_1 : intRange 1 1 = [1] := by decide
theorem intRange_2_4 : intRange 2 4 = [2, 3, 4, 5] := by decide
theorem intRange_6_2 : intRange 6 2 = [6, 7] := by decide
theorem intRange_0_8 : intRange 0 8 = [0, 1, 2, 3, 4, 5, 6, 7] := by decide
theorem intRange_0_1_rev : (intRange 0 1).reverse = [0] := by decide
theorem intRange_0_8_rev : (intRange 0 8).reverse = [7, 6, 5, 4, 3, 2, 1, 0] := by decide
theorem replicate_lit16 : List.replicate (16 : ℕ) (-1 : ℤ) =
    [-1, -1, -1, -1, -1, -1, -1, -1, -1, -1, -1, -1, -1, -1, -1, -1] := by decide
theorem replicate_bad8 : List.replicate (8 : ℕ) badDEMht = badDEM8 := rfl

/-! Lemmas about the `radio_compensate` loop. -/

theorem rcPixel_ok (d : DD) (gD gP mask buf : List ℚ) (x : ℤ) :
    ∃ b, rcPixel d gD gP 5 mask buf x = RC.ok b := by
  simp only [rcPixel]
  split_ifs <;> exact ⟨_, rfl⟩

theorem rcFold_ok (d : DD) (gD gP mask : List ℚ) :
    ∀ (lst : List ℤ) (buf : List ℚ),
      ∃ b, lst.foldl (rcStep d gD gP 5 mask) (RC.ok buf) = RC.ok b
  | [], buf => ⟨buf, rfl⟩
  | x :: t, buf => by
    obtain ⟨b1, hb1⟩ := rcPixel_ok d gD gP mask buf x
    rw [List.foldl_cons]
    have hstep : rcStep d gD gP 5 mask (RC.ok buf) x = RC.ok b1 := hb1
    rw [hstep]
    exact rcFold_ok d gD gP mask t b1

theorem rcFold_fatal (d : DD) (gD gP mask : List ℚ) (form : ℤ) :
    ∀ (lst : List ℤ) (f : ℤ),
      lst.foldl (rcStep d gD gP form mask) (RC.fatal f) = RC.fatal f
  | [], _ => rfl
  | x :: t, f => by
    rw [List.foldl_cons]
    exact rcFold_fatal d gD gP mask form t f

theorem rcPixel_preserves0 (d : DD) (gD gP : List ℚ) (form : ℤ) (mask buf b : List ℚ)
    (x : ℤ) (hx : 1 ≤ x) (h : rcPixel d gD gP form mask buf x = RC.ok b) :
    getI 0 b 0 = getI 0 buf 0 := by
  simp only [rcPixel] at h
  split_ifs at h
  all_goals first
    | (cases h; exact getI_setI_ne 0 buf 0 x _ (by omega))
    | (cases h; rfl)

theorem rcFold_preserves0 (d : DD) (gD gP mask : List ℚ) (form : ℤ) :
    ∀ (lst : List ℤ) (buf l : List ℚ), (∀ x ∈ lst, 1 ≤ x) →
      lst.foldl (rcStep d gD gP form mask) (RC.ok buf) = RC.ok l →
      getI 0 l 0 = getI 0 buf 0
  | [], buf, l, _, h => by cases h; rfl
  | x :: t, buf, l, hmem, h => by
    rw [List.foldl_cons] at h
    cases hp : rcPixel d gD gP form mask buf x with
    | ok b1 =>
      have hstep : rcStep d gD gP form mask (RC.ok buf) x = RC.ok b1 := hp
      rw [hstep] at h
      have h2 := rcFold_preserves0 d gD gP mask form t b1 l
        (fun y hy => hmem y (List.mem_cons_of_mem x hy)) h
      rw [h2]
      exact rcPixel_preserves0 d gD gP form mask buf b1 x (hmem x (List.mem_cons_self x t)) hp
    | fatal f =>
      have hstep : rcStep d gD gP form mask (RC.ok buf) x = RC.fatal f := hp
      rw [hstep, rcFold_fatal d gD gP mask form t f] at h
      exact RC.noConfusion h

/-! Claim theorems. -/

/-- C1, counterexample: the claim asserts that a `radio_compensate` call with
a nonzero form other than 5 triggers the fatal "untested formula" path and
never completes normally.  On the code it is false: `form` is overwritten
with 5 before the switch, so the call with `form = 3` below runs formula 5
on every pixel and returns normally (here the correction factor is 1, so the
line is returned unchanged). -/
theorem C1_counterexample :
    radio_compensate dPeak [0, 0] [0, 0] [7, 9] 2 1 3 [1, 1] = RC.ok [7, 9] ∧
    ∀ f : ℤ, (RC.ok [7, 9] : RC) ≠ RC.fatal f := by
  constructor
  · norm_num [radio_compensate, rcStep, rcPixel, intRange_1_1, getI, setI, bad_dem_height,
      badDEMht, MASK_USER_MASK, dPeak, toNat_lit1]
  · intro f h
    exact RC.noConfusion h

/-- C1, amended: `radio_compensate` overwrites any nonzero `form` with 5, so
a call with a nonzero form behaves exactly like a call with form 5 and never
reaches the fatal `bad_rtc`/`asfPrintError` path; the legacy formulas
1,2,3,4,6 are never executed (the error gate in their cases is unreachable). -/
theorem C1_form_override (d : DD) (grDEM grDEMprev inout : List ℚ) (ns line form : ℤ)
    (mask : List ℚ) (hform : form ≠ 0) :
    radio_compensate d grDEM grDEMprev inout ns line form mask =
      radio_compensate d grDEM grDEMprev inout ns line 5 mask ∧
    ∀ f : ℤ, radio_compensate d grDEM grDEMprev inout ns line form mask ≠ RC.fatal f := by
  have h5 : (5 : ℤ) ≠ 0 := by decide
  constructor
  · simp only [radio_compensate, if_neg hform, if_neg h5]
  · intro f
    simp only [radio_compensate, if_neg hform]
    obtain ⟨b, hb⟩ := rcFold_ok d grDEM grDEMprev mask (intRange 1 (ns - 1).toNat) inout
    rw [hb]
    exact fun h => RC.noConfusion h

/-- C1, witness: the amended theorem applied to the concrete `form = 3`
call. -/
theorem C1_witness :
    (radio_compensate dPeak [0, 0] [0, 0] [7, 9] 2 1 3 [1, 1] =
      radio_compensate dPeak [0, 0] [0, 0] [7, 9] 2 1 5 [1, 1]) ∧
    radio_compensate dPeak [0, 0] [0, 0] [7, 9] 2 1 3 [1, 1] ≠ RC.fatal 3 :=
  ⟨(C1_form_override dPeak [0, 0] [0, 0] [7, 9] 2 1 3 [1, 1] (by decide)).1,
   (C1_form_override dPeak [0, 0] [0, 0] [7, 9] 2 1 3 [1, 1] (by decide)).2 3⟩

/-- C10: `radio_compensate` never modifies sample 0 of its inout line (the
correction loop starts at x = 1), and with form 0 the whole line is returned
unchanged. -/
theorem C10_radio_sample0 (d : DD) (grDEM grDEMprev inout : List ℚ) (ns line form : ℤ)
    (mask : List ℚ) :
    radio_compensate d grDEM grDEMprev inout ns line 0 mask = RC.ok inout ∧
    (∀ l : List ℚ, radio_compensate d grDEM grDEMprev inout ns line form mask = RC.ok l →
      getI 0 l 0 = getI 0 inout 0) := by
  constructor
  · simp [radio_compensate]
  · intro l hl
    by_cases hf : form = 0
    · rw [hf] at hl
      simp only [radio_compensate, if_pos rfl] at hl
      cases hl; rfl
    · simp only [radio_compensate, if_neg hf] at hl
      exact rcFold_preserves0 d grDEM grDEMprev mask 5 _ inout l
        (fun x hx => (mem_intRange _ _ _ hx).1) hl

/-- C10, witness: the theorem applied at a concrete form-0 call, whose
result equation is supplied by the theorem's own first conjunct. -/
theorem C10_witness :
    radio_compensate dPeak [0, 0] [0, 0] [3, 4] 2 1 0 [1, 1] = RC.ok [3, 4] ∧
    getI 0 ([3, 4] : List ℚ) 0 = getI 0 ([3, 4] : List ℚ) 0 :=
  ⟨(C10_radio_sample0 dPeak [0, 0] [0, 0] [3, 4] 2 1 0 [1, 1]).1,
   (C10_radio_sample0 dPeak [0, 0] [0, 0] [3, 4] 2 1 0 [1, 1]).2 [3, 4]
     (C10_radio_sample0 dPeak [0, 0] [0, 0] [3, 4] 2 1 0 [1, 1]).1⟩

/-! Lemmas about the hole-closing pass. -/

theorem holeStep_mask_ne (st : GeoState) (g i : ℤ) (h : g ≠ i) :
    getI 0 (holeStep st g).mask i = getI 0 st.mask i := by
  simp only [holeStep]
  split_ifs <;>
    first
      | rfl
      | exact getI_setI_ne 0 st.mask i g _ (Ne.symm h)

theorem holeFold_mask_ne (i : ℤ) : ∀ (lst : List ℤ) (st : GeoState),
    (∀ g ∈ lst, g ≠ i) → getI 0 (lst.foldl holeStep st).mask i = getI 0 st.mask i
  | [], _, _ => rfl
  | g :: t, st, h => by
    rw [List.foldl_cons,
        holeFold_mask_ne i t _ (fun y hy => h y (List.mem_cons_of_mem g hy)),
        holeStep_mask_ne st g i (h g (List.mem_cons_self g t))]

/-- C9: the 1-pixel hole-closing pass only ever writes ground-range indices
2 through ns-3 inclusive; every pixel outside that interior — in particular
an isolated normal pixel at index 0, 1, ns-2 or ns-1, however it is flanked —
keeps its mask value. -/
theorem C9_holeClose_interior (ns : ℤ) (st : GeoState) (i : ℤ)
    (h : ¬ (2 ≤ i ∧ i ≤ ns - 3)) :
    getI 0 (holeClose ns st).mask i = getI 0 st.mask i := by
  rw [holeClose]
  apply holeFold_mask_ne
  intro g hg
  have := mem_intRange _ _ _ hg
  omega

/-- C9, witness: in `stTest`, pixel 1 is a normal pixel flanked by two
layover pixels, yet the pass over an 8-pixel line leaves it unchanged. -/
theorem C9_witness :
    getI 0 (holeClose 8 stTest).mask 1 = getI 0 stTest.mask 1 :=
  C9_holeClose_interior 8 stTest 1 (by decide)

/-! Lemmas for the clamped table interpolation. -/

set_option maxHeartbeats 1000000 in
theorem interpChkTbl_eq (hsTbl tbl : List ℚ) (ns : ℤ) (pos height : ℚ)
    (hns : 2 ≤ ns) (hlen1 : (hsTbl.length : ℤ) = ns) (hlen2 : (tbl.length : ℤ) = ns)
    (hlo : -1 < pos) (hhi : pos < (ns : ℚ)) :
    interpChkTbl hsTbl tbl ns pos height = some (interpTbl hsTbl tbl ns pos height) := by
  have hns' : (2 : ℚ) ≤ (ns : ℚ) := by exact_mod_cast hns
  have ht : 0 ≤ truncZ pos ∧ truncZ pos < ns := by
    by_cases hp : 0 ≤ pos
    · rw [truncZ_of_nonneg pos hp]
      exact ⟨Int.floor_nonneg.mpr hp, Int.floor_lt.mpr (by exact_mod_cast hhi)⟩
    · rw [truncZ_zero_of_neg pos hlo (lt_of_not_le hp)]
      omega
  have hfin : ∀ s2 : ℚ, 0 ≤ s2 → ⌊s2⌋ ≤ ns - 2 →
      ((getChk tbl (truncZ s2)).bind fun g0 =>
        (getChk tbl (truncZ s2 + 1)).bind fun g1 =>
          some (g0 + (s2 - ((truncZ s2 : ℤ) : ℚ)) * (g1 - g0)))
      = some (getI 0 tbl (truncZ s2) +
          (s2 - ((truncZ s2 : ℤ) : ℚ)) *
            (getI 0 tbl (truncZ s2 + 1) - getI 0 tbl (truncZ s2))) := by
    intro s2 h0 h2
    rw [truncZ_of_nonneg s2 h0,
        getChk_some tbl ⌊s2⌋ (Int.floor_nonneg.mpr h0) (by omega),
        getChk_some tbl (⌊s2⌋ + 1) (by have := Int.floor_nonneg.mpr h0; omega) (by omega)]
    rfl
  simp only [interpChkTbl, interpTbl,
    getChk_some hsTbl (truncZ pos) ht.1 (by omega), Option.bind_eq_bind',
    Option.some_bind']
  by_cases hc1 : pos - height * getI 0 hsTbl (truncZ pos) < 0
  · simp only [if_pos hc1]
    by_cases hc2 : (0 : ℚ) ≥ (ns : ℚ) - 1
    · simp only [if_pos hc2]
      have h0 : (0 : ℚ) ≤ (ns : ℚ) - 2 := by linarith
      have hfl : ⌊(ns : ℚ) - 2⌋ = ns - 2 := by
        rw [show (ns : ℚ) - 2 = ((ns - 2 : ℤ) : ℚ) by push_cast; ring, Int.floor_intCast]
      exact hfin ((ns : ℚ) - 2) h0 (by rw [hfl])
    · simp only [if_neg hc2]
      exact hfin 0 le_rfl (by norm_num; omega)
  · simp only [if_neg hc1]
    have h0 : (0 : ℚ) ≤ pos - height * getI 0 hsTbl (truncZ pos) := by linarith
    by_cases hc2 : pos - height * getI 0 hsTbl (truncZ pos) ≥ (ns : ℚ) - 1
    · simp only [if_pos hc2]
      have h0' : (0 : ℚ) ≤ (ns : ℚ) - 2 := by linarith
      have hfl : ⌊(ns : ℚ) - 2⌋ = ns - 2 := by
        rw [show (ns : ℚ) - 2 = ((ns - 2 : ℤ) : ℚ) by push_cast; ring, Int.floor_intCast]
      exact hfin ((ns : ℚ) - 2) h0' (by rw [hfl])
    · simp only [if_neg hc2]
      refine hfin _ h0 ?_
      have hlt : pos - height * getI 0 hsTbl (truncZ pos) < (ns : ℚ) - 1 := lt_of_not_ge hc2
      have : ⌊pos - height * getI 0 hsTbl (truncZ pos)⌋ < ns - 1 := by
        rw [Int.floor_lt]
        push_cast
        linarith
      omega

theorem SR2GR_chk_as (d : DD) (pos height : ℚ) :
    SR2GR_chk d pos height = interpChkTbl d.heightShiftSR d.groundSR d.numSamples pos height := rfl

theorem SR2GR_as (d : DD) (pos height : ℚ) :
    SR2GR d pos height = interpTbl d.heightShiftSR d.groundSR d.numSamples pos height := rfl

theorem dem_gr2sr_chk_as (d : DD) (pos height : ℚ) :
    dem_gr2sr_chk d pos height = interpChkTbl d.heightShiftGR d.slantGR d.numSamples pos height := rfl

theorem dem_gr2sr_as (d : DD) (pos height : ℚ) :
    dem_gr2sr d pos height = interpTbl d.heightShiftGR d.slantGR d.numSamples pos height := rfl

/-- C2, counterexample: the claim asserts that no out-of-bounds read ever
occurs, for any fractional position, including positions below 0.  But both
`SR2GR` and `dem_gr2sr` read their height-shift table at the truncated,
unclamped position before clamping, so position -1 reads index -1, out of
bounds (the bounds-checked replay returns `none`). -/
theorem C2_counterexample :
    SR2GR_chk dPeak (-1) 0 = none ∧ dem_gr2sr_chk dPeak (-1) 0 = none := by
  constructor <;>
    norm_num [SR2GR_chk, dem_gr2sr_chk, getChk, truncZ, dPeak, idTbl]

/-- C2, amended: for every position strictly between -1 and numSamples (and
any height), every array access of `SR2GR` and of `dem_gr2sr` is in bounds —
the truncated position indexing the height-shift table lies in
[0, numSamples-1], and the interpolation index is clamped into
[0, numSamples-2] — so the bounds-checked replays return exactly the
functions' values.  Positions at or below -1, or at or above numSamples,
read the height-shift table out of bounds (see the counterexample). -/
theorem C2_clamped_access (d : DD) (pos height : ℚ)
    (hns : 2 ≤ d.numSamples)
    (hhsSR : (d.heightShiftSR.length : ℤ) = d.numSamples)
    (hgSR : (d.groundSR.length : ℤ) = d.numSamples)
    (hhsGR : (d.heightShiftGR.length : ℤ) = d.numSamples)
    (hsGR : (d.slantGR.length : ℤ) = d.numSamples)
    (hlo : -1 < pos) (hhi : pos < (d.numSamples : ℚ)) :
    SR2GR_chk d pos height = some (SR2GR d pos height) ∧
    dem_gr2sr_chk d pos height = some (dem_gr2sr d pos height) := by
  constructor
  · rw [SR2GR_chk_as, SR2GR_as]
    exact interpChkTbl_eq _ _ _ _ _ hns hhsSR hgSR hlo hhi
  · rw [dem_gr2sr_chk_as, dem_gr2sr_as]
    exact interpChkTbl_eq _ _ _ _ _ hns hhsGR hsGR hlo hhi

theorem neg_one_lt_half : (-1 : ℚ) < 1/2 := by norm_num

theorem half_lt_dPeak_ns : (1/2 : ℚ) < (dPeak.numSamples : ℚ) := by norm_num [dPeak]

/-- C2, witness: the amended theorem applied to the `dPeak` geometry at
position 1/2 with height 0. -/
theorem C2_witness :
    SR2GR_chk dPeak (1/2) 0 = some (SR2GR dPeak (1/2) 0) ∧
    dem_gr2sr_chk dPeak (1/2) 0 = some (dem_gr2sr dPeak (1/2) 0) :=
  C2_clamped_access dPeak (1/2) 0 (by decide) rfl rfl rfl rfl
    neg_one_lt_half half_lt_dPeak_ns

/-! Lemmas about the `dem_sr2gr` loop. -/

theorem sr2grStep_invalid (d : DD) (inBuf : List ℚ) (ns : ℤ) (fh : Bool) (st : SrState)
    (inX : ℤ) (h : ¬ getI 0 inBuf inX > badDEMht) :
    dem_sr2gr_step d inBuf ns fh st inX = st := by
  simp only [dem_sr2gr_step]
  rw [if_neg]
  intro hc
  exact h hc.1

theorem sr2grFold_invalid (d : DD) (inBuf : List ℚ) (ns : ℤ) (fh : Bool) :
    ∀ (lst : List ℤ) (st : SrState), (∀ x ∈ lst, ¬ getI 0 inBuf x > badDEMht) →
      lst.foldl (dem_sr2gr_step d inBuf ns fh) st = st
  | [], _, _ => rfl
  | x :: t, st, h => by
    rw [List.foldl_cons, sr2grStep_invalid d inBuf ns fh st x (h x (List.mem_cons_self x t))]
    exact sr2grFold_invalid d inBuf ns fh t st (fun y hy => h y (List.mem_cons_of_mem x hy))

/-- C6: in `dem_sr2gr`, when a valid sample closes a gap and either endpoint
value is within tolerance 0.0001 of the "no DEM data" sentinel, every output
pixel from just after the previous valid output position up to and including
the current output position is set to the sentinel — independently of the
gap length and of `fill_holes` — and the sample is recorded as the last
valid one. -/
theorem C6_no_dem_propagation (d : DD) (inBuf : List ℚ) (ns : ℤ) (fill_holes : Bool)
    (st : SrState) (inX : ℤ) (height : ℚ) (outX : ℤ)
    (hheight : height = getI 0 inBuf inX)
    (houtX : outX = truncZ (SR2GR d (inX : ℚ) height))
    (hvalid : height > badDEMht) (h0 : 0 ≤ outX) (h1 : outX < ns)
    (hno : eq st.lastOutValue NO_DEM_DATA (1/10000) = true ∨
           eq height NO_DEM_DATA (1/10000) = true) :
    (∀ j : ℤ, st.lastOutX < j → j ≤ outX → 0 ≤ j → j < (st.out.length : ℤ) →
      getI 0 (dem_sr2gr_step d inBuf ns fill_holes st inX).out j = NO_DEM_DATA) ∧
    (∀ j : ℤ, ¬ (st.lastOutX < j ∧ j ≤ outX) →
      getI 0 (dem_sr2gr_step d inBuf ns fill_holes st inX).out j = getI 0 st.out j) ∧
    (dem_sr2gr_step d inBuf ns fill_holes st inX).lastOutX = outX ∧
    (dem_sr2gr_step d inBuf ns fill_holes st inX).lastOutValue = height := by
  subst hheight
  have hor : (eq st.lastOutValue NO_DEM_DATA (1/10000) ||
      eq (getI 0 inBuf inX) NO_DEM_DATA (1/10000)) = true := by
    rw [Bool.or_eq_true]
    exact hno
  subst houtX
  simp only [dem_sr2gr_step, if_pos (And.intro hvalid (And.intro h0 h1)), if_pos hor]
  refine ⟨?_, ?_, by trivial, by trivial⟩
  · intro j hj1 hj2 hj3 hj4
    exact getI_constGap_in j _ _ _ _ (by omega) (by omega) hj3 hj4
  · intro j hj
    exact getI_constGap_out j _ _ _ _ (by omega)

theorem getI_ramp8_1 : getI 0 ramp8 1 = 11 := rfl

theorem sr_ramp8_1 : (1 : ℤ) = truncZ (SR2GR dPeak (1 : ℚ) 11) := by
  norm_num [SR2GR, truncZ, getI, dPeak, idTbl]

theorem eleven_valid : (11 : ℚ) > badDEMht := by norm_num [badDEMht]

theorem stNoDem_no : eq stNoDem.lastOutValue NO_DEM_DATA (1/10000) = true := by
  norm_num [eq, stNoDem, NO_DEM_DATA]

/-- C6, witness: the theorem applied to a concrete step whose previous valid
sample carried the no-data sentinel; output pixel 1 receives the sentinel. -/
theorem C6_witness :
    getI 0 (dem_sr2gr_step dPeak ramp8 8 false stNoDem 1).out 1 = NO_DEM_DATA :=
  (C6_no_dem_propagation dPeak ramp8 8 false stNoDem 1 11 1 getI_ramp8_1.symm sr_ramp8_1
    eleven_valid (by decide) (by decide) (Or.inl stNoDem_no)).1 1
    (by decide) (by decide) (by decide) (by decide)

/-- C5, counterexample: with `fill_holes` false, the claim predicts that a
gap of exactly 5 output pixels (which does not exceed the 5-pixel threshold)
is still linearly interpolated; under `dC5` the two valid samples 10 and 20
map to output positions 0 and 5, so pixel 1 would become 12.  The code skips
interpolation already when the gap reaches `maxBreakLen = 5`
(`outX-lastOutX < maxBreakLen` fails), leaving the gap pixels at the
bad-height sentinel. -/
theorem C5_counterexample :
    getI 0 (dem_sr2gr dC5 srDEMgap 8 false) 1 = badDEMht ∧ (badDEMht : ℚ) ≠ 12 := by
  constructor
  · norm_num [dem_sr2gr, dem_sr2gr_step, SR2GR, truncZ, getI, setI, eq, constGap, interpGap,
      intRange_0_8, toNat_lit8, replicate_bad8, dC5, dPeak, idTbl, srDEMgap, badDEMht,
      NO_DEM_DATA, maxBreakLen, badDEM8]
  · norm_num [badDEMht]

/-- C5, amended: `dem_sr2gr` (1) leaves every output pixel at the bad-height
sentinel when no input sample is valid (the buffer is pre-filled with the
sentinel); (2) on a valid sample closing a gap from a previous valid sample
(no no-data sentinel involved), it fills positions lastOutX+1 .. outX by
linear interpolation between the two endpoint heights whenever `fill_holes`
is set or the gap is strictly below the 5-pixel threshold `maxBreakLen`;
(3) when `fill_holes` is false and the gap is at least 5 pixels — not only
strictly more than 5, as the claim stated — the output buffer is left
entirely unchanged, so the gap pixels keep the sentinel. -/
theorem C5_sr2gr_gaps :
    (∀ (d : DD) (inBuf : List ℚ) (ns : ℤ) (fh : Bool),
      (∀ x : ℤ, 0 ≤ x → x < ns → ¬ getI 0 inBuf x > badDEMht) →
      ∀ j : ℤ, 0 ≤ j → j < ns → getI 0 (dem_sr2gr d inBuf ns fh) j = badDEMht) ∧
    (∀ (d : DD) (inBuf : List ℚ) (ns : ℤ) (fh : Bool) (st : SrState) (inX : ℤ)
      (height : ℚ) (outX : ℤ),
      height = getI 0 inBuf inX → outX = truncZ (SR2GR d (inX : ℚ) height) →
      height > badDEMht → 0 ≤ outX → outX < ns →
      (eq st.lastOutValue NO_DEM_DATA (1/10000) ||
        eq height NO_DEM_DATA (1/10000)) = false →
      st.lastOutValue ≠ badDEMht →
      (fh = true ∨ outX - st.lastOutX < maxBreakLen) →
      (∀ j : ℤ, st.lastOutX < j → j ≤ outX → 0 ≤ j → j < (st.out.length : ℤ) →
        getI 0 (dem_sr2gr_step d inBuf ns fh st inX).out j =
          st.lastOutValue + ((j : ℚ) - (st.lastOutX : ℚ)) *
            ((height - st.lastOutValue) / ((outX : ℚ) - (st.lastOutX : ℚ)))) ∧
      (∀ j : ℤ, ¬ (st.lastOutX < j ∧ j ≤ outX) →
        getI 0 (dem_sr2gr_step d inBuf ns fh st inX).out j = getI 0 st.out j) ∧
      (dem_sr2gr_step d inBuf ns fh st inX).lastOutX = outX ∧
      (dem_sr2gr_step d inBuf ns fh st inX).lastOutValue = height) ∧
    (∀ (d : DD) (inBuf : List ℚ) (ns : ℤ) (fh : Bool) (st : SrState) (inX : ℤ)
      (height : ℚ) (outX : ℤ),
      height = getI 0 inBuf inX → outX = truncZ (SR2GR d (inX : ℚ) height) →
      height > badDEMht → 0 ≤ outX → outX < ns →
      (eq st.lastOutValue NO_DEM_DATA (1/10000) ||
        eq height NO_DEM_DATA (1/10000)) = false →
      st.lastOutValue ≠ badDEMht →
      fh = false → maxBreakLen ≤ outX - st.lastOutX →
      (dem_sr2gr_step d inBuf ns fh st inX).out = st.out ∧
      (dem_sr2gr_step d inBuf ns fh st inX).lastOutX = outX ∧
      (dem_sr2gr_step d inBuf ns fh st inX).lastOutValue = height) := by
  refine ⟨?_, ?_, ?_⟩
  · intro d inBuf ns fh hbad j hj0 hj1
    rw [dem_sr2gr, sr2grFold_invalid d inBuf ns fh _ _ ?_]
    · exact getI_replicate 0 badDEMht ns.toNat j hj0 (by omega)
    · intro x hx
      have := mem_intRange _ _ _ hx
      exact hbad x (by omega) (by omega)
  · intro d inBuf ns fh st inX height outX hheight houtX hvalid h0 h1 hnotno hprev hfill
    subst hheight
    subst houtX
    have hmain : ¬ ((eq st.lastOutValue NO_DEM_DATA (1/10000) ||
        eq (getI 0 inBuf inX) NO_DEM_DATA (1/10000)) = true) := by
      rw [hnotno]
      exact Bool.false_ne_true
    simp only [dem_sr2gr_step, if_pos (And.intro hvalid (And.intro h0 h1)),
      if_neg hmain, if_pos (And.intro hprev hfill)]
    refine ⟨?_, ?_, by trivial, by trivial⟩
    · intro j hj1 hj2 hj3 hj4
      rw [getI_interpGap_in j _ _ _ _ _ (by omega) (by omega) hj3 hj4]
      push_cast
      ring
    · intro j hj
      exact getI_interpGap_out j _ _ _ _ _ (by omega)
  · intro d inBuf ns fh st inX height outX hheight houtX hvalid h0 h1 hnotno hprev hfh hgap
    subst hheight
    subst houtX
    subst hfh
    have hmain : ¬ ((eq st.lastOutValue NO_DEM_DATA (1/10000) ||
        eq (getI 0 inBuf inX) NO_DEM_DATA (1/10000)) = true) := by
      rw [hnotno]
      exact Bool.false_ne_true
    have hskip : ¬ (st.lastOutValue ≠ badDEMht ∧
        ((false : Bool) = true ∨
          truncZ (SR2GR d (inX : ℚ) (getI 0 inBuf inX)) - st.lastOutX < maxBreakLen)) := by
      rintro ⟨-, h | h⟩
      · exact Bool.false_ne_true h
      · omega
    simp only [dem_sr2gr_step, if_pos (And.intro hvalid (And.intro h0 h1)),
      if_neg hmain, if_neg hskip]
    exact ⟨by trivial, by trivial, by trivial⟩

theorem srDEMgap_all_bad : ∀ x : ℤ, 0 ≤ x → x < 8 → ¬ getI 0 badDEM8 x > badDEMht := by
  intro x h0 h1
  interval_cases x <;> norm_num [badDEM8, getI, badDEMht]

theorem getI_srDEMgap_1 : getI 0 srDEMgap 1 = 20 := rfl

theorem sr_dC5_1 : (5 : ℤ) = truncZ (SR2GR dC5 (1 : ℚ) 20) := by
  norm_num [SR2GR, truncZ, getI, dC5, dPeak, idTbl]

theorem twenty_valid : (20 : ℚ) > badDEMht := by norm_num [badDEMht]

theorem stGap_notno :
    (eq stGap.lastOutValue NO_DEM_DATA (1/10000) || eq (20 : ℚ) NO_DEM_DATA (1/10000))
      = false := by
  norm_num [eq, stGap, NO_DEM_DATA]

theorem stGap_prev : stGap.lastOutValue ≠ badDEMht := by
  norm_num [stGap, badDEMht]

/-- C5, witness: the amended theorem applied to a no-valid-input line, to an
interpolated gap (`fill_holes` true), and to a skipped 5-pixel gap
(`fill_holes` false). -/
theorem C5_witness :
    getI 0 (dem_sr2gr dPeak badDEM8 8 true) 3 = badDEMht ∧
    getI 0 (dem_sr2gr_step dC5 srDEMgap 8 true stGap 1).out 3 =
      stGap.lastOutValue + ((3 : ℚ) - (stGap.lastOutX : ℚ)) *
        ((20 - stGap.lastOutValue) / (((5 : ℤ) : ℚ) - (stGap.lastOutX : ℚ))) ∧
    (dem_sr2gr_step dC5 srDEMgap 8 false stGap 1).out = stGap.out :=
  ⟨C5_sr2gr_gaps.1 dPeak badDEM8 8 true srDEMgap_all_bad 3 (by decide) (by decide),
   (C5_sr2gr_gaps.2.1 dC5 srDEMgap 8 true stGap 1 20 5 getI_srDEMgap_1.symm sr_dC5_1
     twenty_valid (by decide) (by decide) stGap_notno stGap_prev
     (Or.inl rfl)).1 3 (by decide) (by decide) (by decide) (by decide),
   (C5_sr2gr_gaps.2.2 dC5 srDEMgap 8 false stGap 1 20 5 getI_srDEMgap_1.symm sr_dC5_1
     twenty_valid (by decide) (by decide) stGap_notno stGap_prev rfl (by decide)).1⟩

/-! Lemmas about the `geo_compensate` building blocks. -/

theorem geoPixelValid_mask (inp : List ℚ) (doInterp : Bool) (height srX : ℚ) (grX : ℤ)
    (st : GeoState) : (geoPixelValid inp doInterp height srX grX st).mask = st.mask := by
  simp only [geoPixelValid]
  split_ifs <;> rfl

theorem geoPixelValid_srHits (inp : List ℚ) (doInterp : Bool) (height srX : ℚ) (grX : ℤ)
    (st : GeoState) : (geoPixelValid inp doInterp height srX grX st).srHits = st.srHits := by
  simp only [geoPixelValid]
  split_ifs <;> rfl

theorem geoPixelValid_nLayover (inp : List ℚ) (doInterp : Bool) (height srX : ℚ) (grX : ℤ)
    (st : GeoState) : (geoPixelValid inp doInterp height srX grX st).nLayover = st.nLayover := by
  simp only [geoPixelValid]
  split_ifs <;> rfl

theorem geoPixelValid_nShadow (inp : List ℚ) (doInterp : Bool) (height srX : ℚ) (grX : ℤ)
    (st : GeoState) : (geoPixelValid inp doInterp height srX grX st).nShadow = st.nShadow := by
  simp only [geoPixelValid]
  split_ifs <;> rfl

theorem geoPixelValid_biggestLook (inp : List ℚ) (doInterp : Bool) (height srX : ℚ)
    (grX : ℤ) (st : GeoState) :
    (geoPixelValid inp doInterp height srX grX st).biggestLook = st.biggestLook := by
  simp only [geoPixelValid]
  split_ifs <;> rfl

theorem geoPixelValid_getI_out (inp : List ℚ) (doInterp : Bool) (height srX : ℚ)
    (grX : ℤ) (st : GeoState) (h0 : 0 ≤ grX) (h1 : grX < (st.out.length : ℤ)) :
    getI 0 (geoPixelValid inp doInterp height srX grX st).out grX =
      (if doInterp then
        (1 - (srX - ((⌊srX⌋ : ℤ) : ℚ))) * getI 0 inp ⌊srX⌋ +
          (srX - ((⌊srX⌋ : ℤ) : ℚ)) * getI 0 inp (⌊srX⌋ + 1)
       else if srX - ((⌊srX⌋ : ℤ) : ℚ) ≤ 1/2 then getI 0 inp ⌊srX⌋
       else getI 0 inp (⌊srX⌋ + 1)) := by
  simp only [geoPixelValid]
  split_ifs <;> exact getI_setI_self 0 st.out grX _ h0 h1

theorem markLayover_out (g : ℤ) (st : GeoState) : (markLayover g st).out = st.out := by
  simp only [markLayover]
  split_ifs <;> rfl

theorem markLayover_srHits (g : ℤ) (st : GeoState) :
    (markLayover g st).srHits = st.srHits := by
  simp only [markLayover]
  split_ifs <;> rfl

theorem markLayover_nShadow (g : ℤ) (st : GeoState) :
    (markLayover g st).nShadow = st.nShadow := by
  simp only [markLayover]
  split_ifs <;> rfl

theorem markLayover_biggestLook (g : ℤ) (st : GeoState) :
    (markLayover g st).biggestLook = st.biggestLook := by
  simp only [markLayover]
  split_ifs <;> rfl

theorem markLayover_mask_length (g : ℤ) (st : GeoState) :
    (markLayover g st).mask.length = st.mask.length := by
  simp only [markLayover]
  split_ifs <;> simp [length_setI]

theorem markLayover_nLayover (g : ℤ) (st : GeoState) :
    (markLayover g st).nLayover =
      st.nLayover + (if getI 0 st.mask g = MASK_NORMAL then 1 else 0) := by
  simp only [markLayover]
  split_ifs <;> simp

theorem markLayover_of_not_normal (g : ℤ) (st : GeoState)
    (h : getI 0 st.mask g ≠ MASK_NORMAL) : markLayover g st = st := by
  simp only [markLayover, if_neg h]

theorem markLayover_mask_self (g : ℤ) (st : GeoState) (h0 : 0 ≤ g)
    (h1 : g < (st.mask.length : ℤ)) (h : getI 0 st.mask g = MASK_NORMAL) :
    getI 0 (markLayover g st).mask g = MASK_LAYOVER := by
  simp only [markLayover, if_pos h]
  exact getI_setI_self 0 st.mask g _ h0 h1

theorem markLayover_mask_ne (g i : ℤ) (st : GeoState) (h : i ≠ g) :
    getI 0 (markLayover g st).mask i = getI 0 st.mask i := by
  simp only [markLayover]
  split_ifs
  · exact getI_setI_ne 0 st.mask i g _ h
  · rfl

theorem markLayover_mask_not_normal (g i : ℤ) (st : GeoState)
    (h : getI 0 st.mask i ≠ MASK_NORMAL) :
    getI 0 (markLayover g st).mask i = getI 0 st.mask i := by
  by_cases hgi : i = g
  · subst hgi
    rw [markLayover_of_not_normal i st h]
  · exact markLayover_mask_ne g i st hgi

theorem layoverUpd_out (ns x grX : ℤ) (st : GeoState) :
    (layoverUpd ns x grX st).out = st.out := by
  simp only [layoverUpd]
  split_ifs <;> simp [markLayover_out]

theorem layoverUpd_nShadow (ns x grX : ℤ) (st : GeoState) :
    (layoverUpd ns x grX st).nShadow = st.nShadow := by
  simp only [layoverUpd]
  split_ifs <;> simp [markLayover_nShadow]

theorem layoverUpd_biggestLook (ns x grX : ℤ) (st : GeoState) :
    (layoverUpd ns x grX st).biggestLook = st.biggestLook := by
  simp only [layoverUpd]
  split_ifs <;> simp [markLayover_biggestLook]

theorem layoverUpd_mask_not_normal (ns x grX i : ℤ) (st : GeoState)
    (h : getI 0 st.mask i ≠ MASK_NORMAL) :
    getI 0 (layoverUpd ns x grX st).mask i = getI 0 st.mask i := by
  simp only [layoverUpd]
  split_ifs
  · rfl
  · rfl
  · have e1 := markLayover_mask_not_normal (getI (-1) st.srHits x) i st h
    have h1 : getI 0 (markLayover (getI (-1) st.srHits x) st).mask i ≠ MASK_NORMAL := by
      rw [e1]; exact h
    have e2 := markLayover_mask_not_normal (getI (-1) st.srHits (ns + x)) i _ h1
    have h2 : getI 0 (markLayover (getI (-1) st.srHits (ns + x))
        (markLayover (getI (-1) st.srHits x) st)).mask i ≠ MASK_NORMAL := by
      rw [e2]; exact h1
    have e3 := markLayover_mask_not_normal grX i _ h2
    rw [e3, e2, e1]

theorem shadowUpd_out (d : DD) (grDEM : List ℚ) (sat_ht : ℚ) (line grX : ℤ)
    (st : GeoState) : (shadowUpd d grDEM sat_ht line grX st).out = st.out := by
  simp only [shadowUpd]
  split_ifs <;> rfl

theorem shadowUpd_nLayover (d : DD) (grDEM : List ℚ) (sat_ht : ℚ) (line grX : ℤ)
    (st : GeoState) : (shadowUpd d grDEM sat_ht line grX st).nLayover = st.nLayover := by
  simp only [shadowUpd]
  split_ifs <;> rfl

theorem shadowUpd_srHits (d : DD) (grDEM : List ℚ) (sat_ht : ℚ) (line grX : ℤ)
    (st : GeoState) : (shadowUpd d grDEM sat_ht line grX st).srHits = st.srHits := by
  simp only [shadowUpd]
  split_ifs <;> rfl

theorem shadowUpd_mask_ne (d : DD) (grDEM : List ℚ) (sat_ht : ℚ) (line grX i : ℤ)
    (st : GeoState) (h : i ≠ grX) :
    getI 0 (shadowUpd d grDEM sat_ht line grX st).mask i = getI 0 st.mask i := by
  simp only [shadowUpd]
  split_ifs
  · rfl
  · exact getI_setI_ne 0 st.mask i grX _ h
  · rfl

theorem shadowUpd_mask_not_normal (d : DD) (grDEM : List ℚ) (sat_ht : ℚ)
    (line grX i : ℤ) (st : GeoState) (h : getI 0 st.mask i ≠ MASK_NORMAL) :
    getI 0 (shadowUpd d grDEM sat_ht line grX st).mask i = getI 0 st.mask i := by
  by_cases hgi : i = grX
  · subst hgi
    simp only [shadowUpd]
    split_ifs <;> rfl
  · exact shadowUpd_mask_ne d grDEM sat_ht line grX i st hgi

/-- C7: in the main sweep of `geo_compensate`, a pixel with a valid DEM
height (not the bad sentinel, not below -900) whose `dem_gr2sr` slant index
falls outside [1, ns-1) gets output 0; a pixel whose index falls inside gets
the input sampled at that index, bilinearly when `doInterp` is set and by
nearest neighbour otherwise. -/
theorem C7_geo_sampling (d : DD) (grDEM inp : List ℚ) (ns : ℤ) (doInterp hasMask : Bool)
    (sat_ht : ℚ) (line : ℤ) (st : GeoState) (grX : ℤ) (height srX : ℚ)
    (hheight : height = getI 0 grDEM grX)
    (hvalid : ¬ height < -900) (hbad : height ≠ badDEMht)
    (hsrX : srX = dem_gr2sr d (grX : ℚ) height)
    (hgrX0 : 0 ≤ grX) (hgrXlen : grX < (st.out.length : ℤ)) :
    (¬ (1 ≤ srX ∧ srX < (ns : ℚ) - 1) →
      getI 0 (geoPixel d grDEM inp ns doInterp hasMask sat_ht line st grX).out grX = 0) ∧
    ((1 ≤ srX ∧ srX < (ns : ℚ) - 1) →
      getI 0 (geoPixel d grDEM inp ns doInterp hasMask sat_ht line st grX).out grX =
        (if doInterp then
          (1 - (srX - ((⌊srX⌋ : ℤ) : ℚ))) * getI 0 inp ⌊srX⌋ +
            (srX - ((⌊srX⌋ : ℤ) : ℚ)) * getI 0 inp (⌊srX⌋ + 1)
         else if srX - ((⌊srX⌋ : ℤ) : ℚ) ≤ 1/2 then getI 0 inp ⌊srX⌋
         else getI 0 inp (⌊srX⌋ + 1))) := by
  subst hheight
  subst hsrX
  constructor
  · intro hout
    simp only [geoPixel, if_neg hvalid, if_pos hbad, if_neg hout]
    exact getI_setI_self 0 st.out grX 0 hgrX0 hgrXlen
  · intro hin
    simp only [geoPixel, if_neg hvalid, if_pos hbad, if_pos hin]
    by_cases hm : hasMask = true
    · rw [if_pos hm, shadowUpd_out, layoverUpd_out]
      exact geoPixelValid_getI_out _ _ _ _ _ _ hgrX0 hgrXlen
    · rw [if_neg hm]
      exact geoPixelValid_getI_out _ _ _ _ _ _ hgrX0 hgrXlen

theorem zero_not_low : ¬ (0 : ℚ) < -900 := by norm_num

theorem zero_ne_bad : (0 : ℚ) ≠ badDEMht := by norm_num [badDEMht]

theorem gr2sr_dFlat_3 : (3 : ℚ) = dem_gr2sr dFlat (3 : ℚ) 0 := by
  norm_num [dem_gr2sr, truncZ, getI, dFlat, dPeak, idTbl]

theorem three_in_range : (1 : ℚ) ≤ 3 ∧ (3 : ℚ) < (8 : ℚ) - 1 := by norm_num

/-- C7, witness: the theorem applied to the flat geometry at ground pixel 3,
which maps to slant position 3 and is sampled bilinearly. -/
theorem C7_witness :
    getI 0 (geoPixel dFlat zeros8 ramp8 8 true true 2 0 stTest 3).out 3 =
      (if (true : Bool) then
        (1 - ((3 : ℚ) - ((⌊(3 : ℚ)⌋ : ℤ) : ℚ))) * getI 0 ramp8 ⌊(3 : ℚ)⌋ +
          ((3 : ℚ) - ((⌊(3 : ℚ)⌋ : ℤ) : ℚ)) * getI 0 ramp8 (⌊(3 : ℚ)⌋ + 1)
       else if (3 : ℚ) - ((⌊(3 : ℚ)⌋ : ℤ) : ℚ) ≤ 1/2 then getI 0 ramp8 ⌊(3 : ℚ)⌋
       else getI 0 ramp8 (⌊(3 : ℚ)⌋ + 1)) :=
  (C7_geo_sampling dFlat zeros8 ramp8 8 true true 2 0 stTest 3 0 3 rfl
    zero_not_low zero_ne_bad gr2sr_dFlat_3 (by decide) (by decide)).2 three_in_range

/-- C4: in the main sweep of `geo_compensate` with a mask, a valid in-swath
pixel is processed as the shadow block applied to the post-layover state
`st1`; the layover block leaves the running maximum look value unchanged,
and the shadow block marks the pixel shadow (and counts it) exactly when its
look value is strictly below the running maximum and the pixel is still
normal, while a look value at least the running maximum only updates the
maximum and never marks. -/
theorem C4_shadow_sweep (d : DD) (grDEM inp : List ℚ) (ns : ℤ) (doInterp : Bool)
    (sat_ht : ℚ) (line : ℤ) (st : GeoState) (grX : ℤ) (height srX cl : ℚ)
    (st1 : GeoState)
    (hheight : height = getI 0 grDEM grX)
    (hvalid : ¬ height < -900) (hbad : height ≠ badDEMht)
    (hsrX : srX = dem_gr2sr d (grX : ℚ) height)
    (hin : 1 ≤ srX ∧ srX < (ns : ℚ) - 1)
    (hcl : cl = curLook d grDEM sat_ht line grX)
    (hst1 : st1 = layoverUpd ns ⌊srX⌋ grX (geoPixelValid inp doInterp height srX grX
      { st with maxHeight := if height > st.maxHeight then height else st.maxHeight,
                lastGoodHeight := height })) :
    geoPixel d grDEM inp ns doInterp true sat_ht line st grX =
      shadowUpd d grDEM sat_ht line grX st1 ∧
    st1.biggestLook = st.biggestLook ∧
    (cl < st1.biggestLook →
      (shadowUpd d grDEM sat_ht line grX st1).biggestLook = st1.biggestLook ∧
      (getI 0 st1.mask grX = MASK_NORMAL →
        (shadowUpd d grDEM sat_ht line grX st1).mask = setI st1.mask grX MASK_SHADOW ∧
        (shadowUpd d grDEM sat_ht line grX st1).nShadow = st1.nShadow + 1) ∧
      (getI 0 st1.mask grX ≠ MASK_NORMAL →
        (shadowUpd d grDEM sat_ht line grX st1).mask = st1.mask ∧
        (shadowUpd d grDEM sat_ht line grX st1).nShadow = st1.nShadow)) ∧
    (st1.biggestLook ≤ cl →
      (shadowUpd d grDEM sat_ht line grX st1).biggestLook = cl ∧
      (shadowUpd d grDEM sat_ht line grX st1).mask = st1.mask ∧
      (shadowUpd d grDEM sat_ht line grX st1).nShadow = st1.nShadow) := by
  subst hheight
  subst hsrX
  subst hcl
  refine ⟨?_, ?_, ?_, ?_⟩
  · subst hst1
    simp only [geoPixel, if_neg hvalid, if_pos hbad, if_pos hin, if_true]
  · subst hst1
    rw [layoverUpd_biggestLook, geoPixelValid_biggestLook]
  · intro hlt
    have hnot : ¬ curLook d grDEM sat_ht line grX ≥ st1.biggestLook := not_le.mpr hlt
    simp only [shadowUpd, if_neg hnot]
    refine ⟨by split_ifs <;> rfl, ?_, ?_⟩
    · intro hn
      rw [if_pos hn]
      exact ⟨rfl, rfl⟩
    · intro hn
      rw [if_neg hn]
      exact ⟨rfl, rfl⟩
  · intro hge
    have hyes : curLook d grDEM sat_ht line grX ≥ st1.biggestLook := hge
    simp only [shadowUpd, if_pos hyes]
    exact ⟨by trivial, by trivial, by trivial⟩

theorem twohundred_not_low : ¬ (200 : ℚ) < -900 := by norm_num

theorem twohundred_ne_bad : (200 : ℚ) ≠ badDEMht := by norm_num [badDEMht]

theorem gr2sr_dPeak_3_200 : (1 : ℚ) = dem_gr2sr dPeak (3 : ℚ) 200 := by
  norm_num [dem_gr2sr, truncZ, getI, dPeak, idTbl]

theorem one_in_range : (1 : ℚ) ≤ 1 ∧ (1 : ℚ) < (8 : ℚ) - 1 := by norm_num

/-- C4, witness: the decomposition equation of the theorem at a concrete
valid in-swath pixel. -/
theorem C4_witness :
    geoPixel dPeak grDEM200 ramp8 8 true true 2 0 stTest 3 =
      shadowUpd dPeak grDEM200 2 0 3 (layoverUpd 8 ⌊(1 : ℚ)⌋ 3
        (geoPixelValid ramp8 true 200 1 3
          { stTest with
              maxHeight := if (200 : ℚ) > stTest.maxHeight then 200 else stTest.maxHeight,
              lastGoodHeight := 200 })) :=
  (C4_shadow_sweep dPeak grDEM200 ramp8 8 true 2 0 stTest 3 200 1
    (curLook dPeak grDEM200 2 0 3) _ rfl twohundred_not_low twohundred_ne_bad
    gr2sr_dPeak_3_200 one_in_range rfl rfl).1

/-! Lemmas for the third-hit layover marking. -/

theorem layover_ne_normal : MASK_LAYOVER ≠ MASK_NORMAL := by
  norm_num [MASK_LAYOVER, MASK_NORMAL]

theorem layoverUpd_third_hit (ns x grX : ℤ) (st : GeoState) (h0 h1 : ℤ)
    (hh0 : h0 = getI (-1) st.srHits x) (hh1 : h1 = getI (-1) st.srHits (ns + x))
    (hf0 : h0 ≠ -1) (hf1 : h1 ≠ -1) :
    layoverUpd ns x grX st = markLayover grX (markLayover h1 (markLayover h0 st)) := by
  subst hh0
  subst hh1
  simp only [layoverUpd, if_neg hf0, if_neg hf1]

theorem markChain_effect (st : GeoState) (g0 g1 g2 : ℤ)
    (hne01 : g0 ≠ g1) (hne02 : g0 ≠ g2) (hne12 : g1 ≠ g2)
    (hb00 : 0 ≤ g0) (hb01 : g0 < (st.mask.length : ℤ))
    (hb10 : 0 ≤ g1) (hb11 : g1 < (st.mask.length : ℤ))
    (hb20 : 0 ≤ g2) (hb21 : g2 < (st.mask.length : ℤ)) :
    (getI 0 st.mask g0 = MASK_NORMAL →
      getI 0 (markLayover g2 (markLayover g1 (markLayover g0 st))).mask g0 = MASK_LAYOVER) ∧
    (getI 0 st.mask g0 ≠ MASK_NORMAL →
      getI 0 (markLayover g2 (markLayover g1 (markLayover g0 st))).mask g0 =
        getI 0 st.mask g0) ∧
    (getI 0 st.mask g1 = MASK_NORMAL →
      getI 0 (markLayover g2 (markLayover g1 (markLayover g0 st))).mask g1 = MASK_LAYOVER) ∧
    (getI 0 st.mask g1 ≠ MASK_NORMAL →
      getI 0 (markLayover g2 (markLayover g1 (markLayover g0 st))).mask g1 =
        getI 0 st.mask g1) ∧
    (getI 0 st.mask g2 = MASK_NORMAL →
      getI 0 (markLayover g2 (markLayover g1 (markLayover g0 st))).mask g2 = MASK_LAYOVER) ∧
    (getI 0 st.mask g2 ≠ MASK_NORMAL →
      getI 0 (markLayover g2 (markLayover g1 (markLayover g0 st))).mask g2 =
        getI 0 st.mask g2) ∧
    (markLayover g2 (markLayover g1 (markLayover g0 st))).nLayover =
      st.nLayover + ((if getI 0 st.mask g0 = MASK_NORMAL then 1 else 0) +
        (if getI 0 st.mask g1 = MASK_NORMAL then 1 else 0) +
        (if getI 0 st.mask g2 = MASK_NORMAL then 1 else 0)) := by
  have len1 : (markLayover g0 st).mask.length = st.mask.length := markLayover_mask_length g0 st
  have len2 : (markLayover g1 (markLayover g0 st)).mask.length = st.mask.length := by
    rw [markLayover_mask_length, len1]
  have e10 : getI 0 (markLayover g0 st).mask g1 = getI 0 st.mask g1 :=
    markLayover_mask_ne g0 g1 st (Ne.symm hne01)
  have e20 : getI 0 (markLayover g0 st).mask g2 = getI 0 st.mask g2 :=
    markLayover_mask_ne g0 g2 st (Ne.symm hne02)
  have e21 : getI 0 (markLayover g1 (markLayover g0 st)).mask g2 =
      getI 0 (markLayover g0 st).mask g2 :=
    markLayover_mask_ne g1 g2 _ (Ne.symm hne12)
  refine ⟨?_, ?_, ?_, ?_, ?_, ?_, ?_⟩
  · intro hn
    rw [markLayover_mask_ne g2 g0 _ hne02, markLayover_mask_ne g1 g0 _ hne01]
    exact markLayover_mask_self g0 st hb00 hb01 hn
  · intro hn
    rw [markLayover_mask_ne g2 g0 _ hne02, markLayover_mask_ne g1 g0 _ hne01]
    exact markLayover_mask_not_normal g0 g0 st hn
  · intro hn
    rw [markLayover_mask_ne g2 g1 _ hne12]
    exact markLayover_mask_self g1 _ hb10 (by rw [len1]; exact hb11) (by rw [e10]; exact hn)
  · intro hn
    have hn1 : getI 0 (markLayover g0 st).mask g1 ≠ MASK_NORMAL := by rw [e10]; exact hn
    rw [markLayover_mask_ne g2 g1 _ hne12, markLayover_mask_not_normal g1 g1 _ hn1, e10]
  · intro hn
    refine markLayover_mask_self g2 _ hb20 (by rw [len2]; exact hb21) ?_
    rw [e21, e20]
    exact hn
  · intro hn
    have hn2 : getI 0 (markLayover g1 (markLayover g0 st)).mask g2 ≠ MASK_NORMAL := by
      rw [e21, e20]; exact hn
    rw [markLayover_mask_not_normal g2 g2 _ hn2, e21, e20]
  · rw [markLayover_nLayover, markLayover_nLayover, markLayover_nLayover, e21, e20, e10]
    ring

set_option maxHeartbeats 4000000 in
/-- C3, counterexample: in the `runPeakUser` line, ground pixels 2, 3 and 4
all map to slant pixel 2 (the hit table records origins 2 and 3, and the
mask promotions at 3 and 4 show the third hit fired), yet origin 2 — which
was user-masked on entry — is not marked as layover, contradicting the
claim that ALL recorded origins are marked.  Only the still-normal origins
are marked. -/
theorem C3_counterexample :
    getI (-1) runPeakUser.srHits 2 = 2 ∧ getI (-1) runPeakUser.srHits 10 = 3 ∧
    getI 0 runPeakUser.mask 3 = MASK_LAYOVER ∧ getI 0 runPeakUser.mask 4 = MASK_LAYOVER ∧
    getI 0 runPeakUser.mask 2 = MASK_USER_MASK ∧ MASK_USER_MASK ≠ MASK_LAYOVER := by
  norm_num [runPeakUser, geo_compensate, geoPixel, geoPixelValid, layoverUpd, markLayover,
    shadowUpd, curLook, dem_gr2sr, SR2GR, truncZ, getI, setI, maskReset, holeClose, holeStep,
    edgeStep, edgeMask, intRange_0_8, intRange_2_4, intRange_6_2, intRange_0_1_rev,
    intRange_0_8_rev, replicate_lit16, toNat_lit1, toNat_lit2, toNat_lit4, toNat_lit8,
    toNat_lit16, badDEMht, MASK_NORMAL, MASK_LAYOVER, MASK_SHADOW, MASK_USER_MASK,
    MASK_INVALID_DATA, dPeak, peakDEM, idTbl, ceil_eval, maskUser2, ones8, zeros8]

set_option maxHeartbeats 4000000 in
/-- C3, amended: on a third-or-later hit of a slant pixel with a mask
present, the recorded origins and the current pixel are promoted to layover
exactly when their current mask value is normal (already non-normal pixels,
e.g. user-masked ones, are left unchanged), and `n_layover` grows by the
number of pixels newly marked; and on the concrete single-peak DEM the run
marks pixels 2, 3 and 4 as layover with `n_layover = 3`. -/
theorem C3_layover_marking :
    (∀ (d : DD) (grDEM inp : List ℚ) (ns : ℤ) (doInterp : Bool) (sat_ht : ℚ) (line : ℤ)
      (st : GeoState) (grX : ℤ) (height srX : ℚ) (x h0 h1 : ℤ),
      height = getI 0 grDEM grX →
      ¬ height < -900 → height ≠ badDEMht →
      srX = dem_gr2sr d (grX : ℚ) height →
      (1 ≤ srX ∧ srX < (ns : ℚ) - 1) →
      x = ⌊srX⌋ →
      h0 = getI (-1) st.srHits x → h1 = getI (-1) st.srHits (ns + x) →
      h0 ≠ -1 → h1 ≠ -1 →
      h0 ≠ h1 → h0 ≠ grX → h1 ≠ grX →
      0 ≤ h0 → h0 < (st.mask.length : ℤ) →
      0 ≤ h1 → h1 < (st.mask.length : ℤ) →
      0 ≤ grX → grX < (st.mask.length : ℤ) →
      ((getI 0 st.mask h0 = MASK_NORMAL →
        getI 0 (geoPixel d grDEM inp ns doInterp true sat_ht line st grX).mask h0 =
          MASK_LAYOVER) ∧
       (getI 0 st.mask h0 ≠ MASK_NORMAL →
        getI 0 (geoPixel d grDEM inp ns doInterp true sat_ht line st grX).mask h0 =
          getI 0 st.mask h0) ∧
       (getI 0 st.mask h1 = MASK_NORMAL →
        getI 0 (geoPixel d grDEM inp ns doInterp true sat_ht line st grX).mask h1 =
          MASK_LAYOVER) ∧
       (getI 0 st.mask h1 ≠ MASK_NORMAL →
        getI 0 (geoPixel d grDEM inp ns doInterp true sat_ht line st grX).mask h1 =
          getI 0 st.mask h1) ∧
       (getI 0 st.mask grX = MASK_NORMAL →
        getI 0 (geoPixel d grDEM inp ns doInterp true sat_ht line st grX).mask grX =
          MASK_LAYOVER) ∧
       (getI 0 st.mask grX ≠ MASK_NORMAL →
        getI 0 (geoPixel d grDEM inp ns doInterp true sat_ht line st grX).mask grX =
          getI 0 st.mask grX) ∧
       (geoPixel d grDEM inp ns doInterp true sat_ht line st grX).nLayover =
         st.nLayover + ((if getI 0 st.mask h0 = MASK_NORMAL then 1 else 0) +
           (if getI 0 st.mask h1 = MASK_NORMAL then 1 else 0) +
           (if getI 0 st.mask grX = MASK_NORMAL then 1 else 0)))) ∧
    (runPeak.nLayover = 3 ∧ getI 0 runPeak.mask 2 = MASK_LAYOVER ∧
     getI 0 runPeak.mask 3 = MASK_LAYOVER ∧ getI 0 runPeak.mask 4 = MASK_LAYOVER) := by
  constructor
  · intro d grDEM inp ns doInterp sat_ht line st grX height srX x h0 h1 hheight hvalid hbad
      hsrX hin hx hh0 hh1 hf0 hf1 hne01 hne0g hne1g hb00 hb01 hb10 hb11 hbg0 hbg1
    subst hheight
    subst hsrX
    subst hx
    simp only [geoPixel, if_neg hvalid, if_pos hbad, if_pos hin, if_true]
    have hsrh0 : h0 = getI (-1)
        (geoPixelValid inp doInterp (getI 0 grDEM grX) (dem_gr2sr d (grX : ℚ)
          (getI 0 grDEM grX)) grX
          { st with maxHeight := if getI 0 grDEM grX > st.maxHeight then getI 0 grDEM grX
                                 else st.maxHeight,
                    lastGoodHeight := getI 0 grDEM grX }).srHits
        ⌊dem_gr2sr d (grX : ℚ) (getI 0 grDEM grX)⌋ := by
      rw [geoPixelValid_srHits]
      exact hh0
    have hsrh1 : h1 = getI (-1)
        (geoPixelValid inp doInterp (getI 0 grDEM grX) (dem_gr2sr d (grX : ℚ)
          (getI 0 grDEM grX)) grX
          { st with maxHeight := if getI 0 grDEM grX > st.maxHeight then getI 0 grDEM grX
                                 else st.maxHeight,
                    lastGoodHeight := getI 0 grDEM grX }).srHits
        (ns + ⌊dem_gr2sr d (grX : ℚ) (getI 0 grDEM grX)⌋) := by
      rw [geoPixelValid_srHits]
      exact hh1
    rw [layoverUpd_third_hit _ _ _ _ h0 h1 hsrh0 hsrh1 hf0 hf1]
    have hmask : (geoPixelValid inp doInterp (getI 0 grDEM grX) (dem_gr2sr d (grX : ℚ)
        (getI 0 grDEM grX)) grX
        { st with maxHeight := if getI 0 grDEM grX > st.maxHeight then getI 0 grDEM grX
                               else st.maxHeight,
                  lastGoodHeight := getI 0 grDEM grX }).mask = st.mask := by
      rw [geoPixelValid_mask]
    have hnlay : (geoPixelValid inp doInterp (getI 0 grDEM grX) (dem_gr2sr d (grX : ℚ)
        (getI 0 grDEM grX)) grX
        { st with maxHeight := if getI 0 grDEM grX > st.maxHeight then getI 0 grDEM grX
                               else st.maxHeight,
                  lastGoodHeight := getI 0 grDEM grX }).nLayover = st.nLayover := by
      rw [geoPixelValid_nLayover]
    obtain ⟨c0n, c0nn, c1n, c1nn, c2n, c2nn, cnl⟩ := markChain_effect
      (geoPixelValid inp doInterp (getI 0 grDEM grX) (dem_gr2sr d (grX : ℚ)
        (getI 0 grDEM grX)) grX
        { st with maxHeight := if getI 0 grDEM grX > st.maxHeight then getI 0 grDEM grX
                               else st.maxHeight,
                  lastGoodHeight := getI 0 grDEM grX })
      h0 h1 grX hne01 hne0g hne1g
      hb00 (by rw [hmask]; exact hb01) hb10 (by rw [hmask]; exact hb11)
      hbg0 (by rw [hmask]; exact hbg1)
    rw [hmask] at c0n c0nn c1n c1nn c2n c2nn cnl
    refine ⟨?_, ?_, ?_, ?_, ?_, ?_, ?_⟩
    · intro hn
      rw [shadowUpd_mask_ne _ _ _ _ _ _ _ hne0g]
      exact c0n hn
    · intro hn
      rw [shadowUpd_mask_ne _ _ _ _ _ _ _ hne0g]
      exact c0nn hn
    · intro hn
      rw [shadowUpd_mask_ne _ _ _ _ _ _ _ hne1g]
      exact c1n hn
    · intro hn
      rw [shadowUpd_mask_ne _ _ _ _ _ _ _ hne1g]
      exact c1nn hn
    · intro hn
      have hcur : getI 0 (markLayover grX (markLayover h1 (markLayover h0
          (geoPixelValid inp doInterp (getI 0 grDEM grX) (dem_gr2sr d (grX : ℚ)
            (getI 0 grDEM grX)) grX
            { st with maxHeight := if getI 0 grDEM grX > st.maxHeight then getI 0 grDEM grX
                                   else st.maxHeight,
                      lastGoodHeight := getI 0 grDEM grX })))).mask grX ≠ MASK_NORMAL := by
        rw [c2n hn]
        exact layover_ne_normal
      rw [shadowUpd_mask_not_normal _ _ _ _ _ _ _ hcur]
      exact c2n hn
    · intro hn
      have hcur : getI 0 (markLayover grX (markLayover h1 (markLayover h0
          (geoPixelValid inp doInterp (getI 0 grDEM grX) (dem_gr2sr d (grX : ℚ)
            (getI 0 grDEM grX)) grX
            { st with maxHeight := if getI 0 grDEM grX > st.maxHeight then getI 0 grDEM grX
                                   else st.maxHeight,
                      lastGoodHeight := getI 0 grDEM grX })))).mask grX ≠ MASK_NORMAL := by
        rw [c2nn hn]
        exact hn
      rw [shadowUpd_mask_not_normal _ _ _ _ _ _ _ hcur]
      exact c2nn hn
    · rw [shadowUpd_nLayover, cnl, hnlay]
  · norm_num [runPeak, geo_compensate, geoPixel, geoPixelValid, layoverUpd, markLayover,
        shadowUpd, curLook, dem_gr2sr, SR2GR, truncZ, getI, setI, maskReset, holeClose,
        holeStep, edgeStep, edgeMask, intRange_0_8, intRange_2_4, intRange_6_2,
        intRange_0_1_rev, intRange_0_8_rev, replicate_lit16, toNat_lit1, toNat_lit2,
        toNat_lit4, toNat_lit8, toNat_lit16, badDEMht, MASK_NORMAL, MASK_LAYOVER,
        MASK_SHADOW, MASK_USER_MASK, MASK_INVALID_DATA, dPeak, peakDEM, idTbl, ceil_eval,
        maskAllNormal, ones8, zeros8]

theorem floor_one : (1 : ℤ) = ⌊(1 : ℚ)⌋ := by norm_num

theorem stTest_mask1_normal : getI 0 stTest.mask 1 = MASK_NORMAL := rfl

/-- C3, witness: the amended theorem applied at a concrete third hit of
slant pixel 1 (recorded origins 0 and 1, current pixel 3). -/
theorem C3_witness :
    (getI 0 stTest.mask 1 = MASK_NORMAL →
      getI 0 (geoPixel dPeak grDEM200 ramp8 8 true true 2 0 stTest 3).mask 1 =
        MASK_LAYOVER) ∧
    (geoPixel dPeak grDEM200 ramp8 8 true true 2 0 stTest 3).nLayover =
      stTest.nLayover + ((if getI 0 stTest.mask 0 = MASK_NORMAL then 1 else 0) +
        (if getI 0 stTest.mask 1 = MASK_NORMAL then 1 else 0) +
        (if getI 0 stTest.mask 3 = MASK_NORMAL then 1 else 0)) :=
  ⟨(C3_layover_marking.1 dPeak grDEM200 ramp8 8 true 2 0 stTest 3 200 1 1 0 1 rfl
      twohundred_not_low twohundred_ne_bad gr2sr_dPeak_3_200 one_in_range floor_one
      rfl rfl (by decide) (by decide) (by decide) (by decide) (by decide) (by decide)
      (by decide) (by decide) (by decide) (by decide) (by decide)).2.2.1,
   (C3_layover_marking.1 dPeak grDEM200 ramp8 8 true 2 0 stTest 3 200 1 1 0 1 rfl
      twohundred_not_low twohundred_ne_bad gr2sr_dPeak_3_200 one_in_range floor_one
      rfl rfl (by decide) (by decide) (by decide) (by decide) (by decide) (by decide)
      (by decide) (by decide) (by decide) (by decide) (by decide)).2.2.2.2.2.2⟩

/-! Lemmas for the mask-stability claim. -/

theorem getI_cons_zero {α : Type} (d0 a : α) (t : List α) : getI d0 (a :: t) 0 = a := rfl

theorem maskReset_keep : ∀ (m : List ℚ) (i : ℤ),
    getI 0 m i = MASK_USER_MASK ∨ getI 0 m i = MASK_INVALID_DATA →
    getI 0 (maskReset m) i = getI 0 m i
  | [], _, _ => rfl
  | a :: t, i, h => by
    by_cases hi : i = 0
    · subst hi
      rw [getI_cons_zero] at h
      rw [maskReset, List.map_cons, getI_cons_zero, getI_cons_zero]
      rcases h with h | h
      · rw [if_neg (fun hc => hc.1 h)]
      · rw [if_neg (fun hc => hc.2 h)]
    · by_cases hneg : i < 0
      · rw [getI_neg 0 _ i hneg, getI_neg 0 _ i hneg]
      · simp only [maskReset, List.map_cons, getI, if_neg hi, if_neg hneg] at h ⊢
        exact maskReset_keep t (i - 1) h

theorem holeStep_mask_not_normal (st : GeoState) (g i : ℤ)
    (h : getI 0 st.mask i ≠ MASK_NORMAL) :
    getI 0 (holeStep st g).mask i = getI 0 st.mask i := by
  by_cases hgi : g = i
  · subst hgi
    simp only [holeStep, if_neg h]
  · exact holeStep_mask_ne st g i hgi

theorem holeFold_mask_not_normal : ∀ (lst : List ℤ) (st : GeoState) (i : ℤ),
    getI 0 st.mask i ≠ MASK_NORMAL →
    getI 0 (lst.foldl holeStep st).mask i = getI 0 st.mask i
  | [], _, _, _ => rfl
  | g :: t, st, i, h => by
    have e := holeStep_mask_not_normal st g i h
    have h2 : getI 0 (holeStep st g).mask i ≠ MASK_NORMAL := by rw [e]; exact h
    rw [List.foldl_cons, holeFold_mask_not_normal t _ i h2, e]

set_option maxHeartbeats 4000000 in
/-- C8, counterexample: the claim says a pixel that enters user-masked is
never reclassified within the line.  In the `runFlatUser` line, pixel 7
enters user-masked and leaves marked invalid-data: the final edge pass of
`geo_compensate` overwrites the right-edge pixels unconditionally, without
checking the current mask value. -/
theorem C8_counterexample :
    getI 0 maskUser7 7 = MASK_USER_MASK ∧
    getI 0 runFlatUser.mask 7 = MASK_INVALID_DATA ∧
    MASK_INVALID_DATA ≠ MASK_USER_MASK := by
  norm_num [runFlatUser, geo_compensate, geoPixel, geoPixelValid, layoverUpd, markLayover,
    shadowUpd, curLook, dem_gr2sr, SR2GR, truncZ, getI, setI, maskReset, holeClose, holeStep,
    edgeStep, edgeMask, intRange_0_8, intRange_2_4, intRange_6_2, intRange_0_1_rev,
    intRange_0_8_rev, replicate_lit16, toNat_lit1, toNat_lit2, toNat_lit4, toNat_lit8,
    toNat_lit16, badDEMht, MASK_NORMAL, MASK_LAYOVER, MASK_SHADOW, MASK_USER_MASK,
    MASK_INVALID_DATA, dFlat, dPeak, idTbl, ceil_eval, maskUser7, ramp8, zeros8]

/-- C8, amended: a pixel whose mask value is user-masked or invalid-data is
never reclassified by the per-line reset, and the layover promotion, the
shadow promotion and the 1-pixel hole-closing pass each only change pixels
whose current mask value is normal; the final edge invalid-data pass,
however, may overwrite a user-masked pixel with invalid-data (see the
counterexample). -/
theorem C8_mask_stability :
    (∀ (m : List ℚ) (i : ℤ),
      getI 0 m i = MASK_USER_MASK ∨ getI 0 m i = MASK_INVALID_DATA →
      getI 0 (maskReset m) i = getI 0 m i) ∧
    (∀ (ns x grX i : ℤ) (st : GeoState), getI 0 st.mask i ≠ MASK_NORMAL →
      getI 0 (layoverUpd ns x grX st).mask i = getI 0 st.mask i) ∧
    (∀ (d : DD) (grDEM : List ℚ) (sat_ht : ℚ) (line grX i : ℤ) (st : GeoState),
      getI 0 st.mask i ≠ MASK_NORMAL →
      getI 0 (shadowUpd d grDEM sat_ht line grX st).mask i = getI 0 st.mask i) ∧
    (∀ (ns i : ℤ) (st : GeoState), getI 0 st.mask i ≠ MASK_NORMAL →
      getI 0 (holeClose ns st).mask i = getI 0 st.mask i) :=
  ⟨maskReset_keep,
   fun ns x grX i st h => layoverUpd_mask_not_normal ns x grX i st h,
   fun d grDEM sat_ht line grX i st h =>
     shadowUpd_mask_not_normal d grDEM sat_ht line grX i st h,
   fun ns i st h => holeFold_mask_not_normal (intRange 2 (ns - 4).toNat) st i h⟩

theorem maskUser7_user : getI 0 maskUser7 7 = MASK_USER_MASK := rfl

theorem stTest_mask0_not_normal : getI 0 stTest.mask 0 ≠ MASK_NORMAL := by
  norm_num [stTest, getI, MASK_LAYOVER, MASK_NORMAL]

/-- C8, witness: the reset keeps the user-masked pixel 7 of `maskUser7`,
and the hole-closing pass keeps the layover pixel 0 of `stTest`. -/
theorem C8_witness :
    getI 0 (maskReset maskUser7) 7 = getI 0 maskUser7 7 ∧
    getI 0 (holeClose 8 stTest).mask 0 = getI 0 stTest.mask 0 :=
  ⟨C8_mask_stability.1 maskUser7 7 (Or.inl maskUser7_user),
   C8_mask_stability.2.2.2 8 0 stTest stTest_mask0_not_normal⟩

end DeskewDem
